import Mathlib

/-!
Verification of the retry executor in google/api_core/retry_async.py.

The embedding models durations as exact integers (in an arbitrary
fixed time unit, say microseconds).  Wall-clock
time is threaded explicitly: each attempt or stream pull has a stated
duration, `asyncio.wait_for` cancellation fires exactly when the elapsed
time reaches the configured bound, and the measured elapsed time equals
the stated duration.  Errors are a small inductive type: `user` errors
stand for exceptions raised by the target (with a flag marking whether
they are `asyncio.TimeoutError` instances), and the remaining
constructors stand for the distinguished exceptions the executor itself
can raise or encounter (the `asyncio.TimeoutError` produced by
`wait_for`, the `TypeError` from comparing `None` with `0`, and the
`RetryError` built with `None` cause at the pre-pull budget check).
Every run produces a result together with an event trace recording
stream opens/releases, values yielded to the consumer, retryable
failures recorded into `last_exc`, sleeps (with the remaining budget at
the moment of sleeping), consumer error injections and `on_error` calls.
-/

namespace RetryAsync

/-- Exceptions, as the retry machinery observes them. -/
inductive Err where
  | user : Nat → Bool → Err
  | timeoutError : Err
  | noneCmpTypeError : Err
  | budgetRetryError : Err
deriving DecidableEq, Repr

/-- Models `isinstance(exc, asyncio.TimeoutError)`: true for the error
raised by `asyncio.wait_for` and for user errors flagged as timeout
errors. -/
def Err.timeoutLike : Err → Bool
  | .user _ b => b
  | .timeoutError => true
  | .noneCmpTypeError => false
  | .budgetRetryError => false

/-- Whether an error is one the target itself could raise (everything a
user stream or coroutine raises is modelled as `user`). -/
def Err.isUser : Err → Bool
  | .user _ _ => true
  | _ => false

/-- Terminal outcome of one run of either executor. -/
inductive RunResult where
  | success : Int → RunResult
  | done : RunResult
  | fatal : Err → RunResult
  | deadline : Err → RunResult
  | sleepsExhausted : RunResult
  | nameError : RunResult
  | fuelOut : RunResult
deriving DecidableEq, Repr

/-- Observable events of a run. `sleepEv s r` records an actual sleep of
`s` seconds with `r` the remaining budget just before sleeping (`none`
when no budget is tracked); `failEv e` records the moment the executor
stores `e` into `last_exc`; `openS`/`closeS` record creation and release
of the k-th underlying stream. -/
inductive Ev where
  | openS : Nat → Ev
  | closeS : Nat → Ev
  | yieldVal : Int → Ev
  | sleepEv : ℤ → Option ℤ → Ev
  | failEv : Err → Ev
  | throwEv : Nat → Err → Ev
  | onErrEv : Err → Ev
  | attemptEv : Nat → Ev
deriving DecidableEq, Repr

/-- Result and trace of a finished run. -/
structure Outcome where
  result : RunResult
  trace : List Ev
deriving DecidableEq, Repr

/-! ## Single-shot executor: `retry_target` -/

/-- Behaviour of the nth invocation of the single-shot target: how long
the awaited coroutine runs and whether it returns a value or raises. -/
structure Attempt where
  dur : ℤ
  outcome : Except Err Int

/-- Inputs of one `retry_target` run. -/
structure SSCfg where
  attempts : Nat → Attempt
  predicate : Err → Bool
  timeout : Option ℤ
  hasOnError : Bool

/-- The retry loop of `retry_target` (lines 241 to 280 of the source):
one iteration per value of the sleep generator.  `ddl` is `deadline_dt`
(already `None` when the configured timeout was falsy), `now` the
current wall-clock time, `nA` the index of the next attempt. -/
def ssTr1 (tr : List Ev) (nA : Nat) : List Ev := tr ++ [Ev.attemptEv nA]

/-- Trace events of the `except` body of `retry_target` (lines 252 to
257): record `last_exc` and call `on_error` when present. -/
def ssTr2 (cfg : SSCfg) (tr : List Ev) (nA : Nat) (e : Err) : List Ev :=
  tr ++ [Ev.attemptEv nA] ++ [Ev.failEv e]
    ++ (if cfg.hasOnError then [Ev.onErrEv e] else [])

def ssLoop (cfg : SSCfg) : Option ℤ → ℤ → Nat → List Ev → List ℤ → Outcome
  | _, _, _, tr, [] => ⟨.sleepsExhausted, tr⟩
  | none, now, nA, tr, sleep :: rest =>
    match (cfg.attempts nA).outcome with
    | .ok v => ⟨.success v, ssTr1 tr nA⟩
    | .error e =>
      if cfg.predicate e = false ∧ e.timeoutLike = false then ⟨.fatal e, ssTr1 tr nA⟩
      else
        ssLoop cfg none (now + (cfg.attempts nA).dur + sleep) (nA + 1)
          (ssTr2 cfg tr nA e ++ [Ev.sleepEv sleep none]) rest
  | some d, now, nA, tr, sleep :: rest =>
    if d - now ≤ (cfg.attempts nA).dur ∨ d - now ≤ 0 then
      if d ≤ now + max (d - now) 0 then
        ⟨.deadline Err.timeoutError, ssTr2 cfg tr nA Err.timeoutError⟩
      else
        ssLoop cfg (some d)
          (now + max (d - now) 0 + min (d - (now + max (d - now) 0)) sleep) (nA + 1)
          (ssTr2 cfg tr nA Err.timeoutError
            ++ [Ev.sleepEv (min (d - (now + max (d - now) 0)) sleep)
                  (some (d - (now + max (d - now) 0)))]) rest
    else
      match (cfg.attempts nA).outcome with
      | .ok v => ⟨.success v, ssTr1 tr nA⟩
      | .error e =>
        if cfg.predicate e = false ∧ e.timeoutLike = false then ⟨.fatal e, ssTr1 tr nA⟩
        else
          if d ≤ now + (cfg.attempts nA).dur then
            ⟨.deadline e, ssTr2 cfg tr nA e⟩
          else
            ssLoop cfg (some d)
              (now + (cfg.attempts nA).dur
                + min (d - (now + (cfg.attempts nA).dur)) sleep) (nA + 1)
              (ssTr2 cfg tr nA e
                ++ [Ev.sleepEv (min (d - (now + (cfg.attempts nA).dur)) sleep)
                      (some (d - (now + (cfg.attempts nA).dur)))]) rest

/-- `retry_target`: the deadline is `utcnow() + timeout` when `timeout`
is truthy, else `None`; the run starts at wall-clock time 0. -/
def retry_target (cfg : SSCfg) (sleeps : List ℤ) : Outcome :=
  let ddl : Option ℤ :=
    match cfg.timeout with
    | some t => if t = 0 then none else some t
    | none => none
  ssLoop cfg ddl 0 0 [] sleeps

/-! ## Streaming executor: `retry_target_generator` -/

/-- Response of an underlying stream to one `asend`: after `dur` seconds
it yields a value, raises `StopAsyncIteration`, or raises an error. -/
inductive PullKind where
  | yields : Int → PullKind
  | exhausts : PullKind
  | fails : Err → PullKind
deriving DecidableEq

/-- One pull from the underlying stream. -/
structure Pull where
  dur : ℤ
  kind : PullKind
deriving DecidableEq

/-- Response of the underlying stream to `athrow(e)`: it lets the error
(or another one) propagate, ends with `StopAsyncIteration`, or catches
the error and yields a further value. -/
inductive ThrowResp where
  | raises : Err → ThrowResp
  | exhausts : ThrowResp
  | yields : Int → ThrowResp
deriving DecidableEq

/-- Behaviour of one underlying stream instance: its response to the nth
`asend` and its response to an injected error. -/
structure StreamBeh where
  pulls : Nat → Pull
  throwResp : Err → ThrowResp

/-- Result of calling the stream factory: a fresh stream, or an
exception raised by the call itself. -/
inductive FactoryResult where
  | stream : StreamBeh → FactoryResult
  | raises : Err → FactoryResult

/-- How the consumer reacts to a value yielded by the wrapper: pull the
next value (`asend`), close the wrapper (`aclose`), or inject an error
(`athrow e`). -/
inductive ConsumerResp where
  | next : ConsumerResp
  | close : ConsumerResp
  | throw : Err → ConsumerResp

/-- Inputs of one `retry_target_generator` run.  `consumer n` is the
consumer reaction to the nth value yielded by the wrapper; `innerFuel`
bounds the length of the forwarding loop of a single attempt (the model
returns `fuelOut` if it is exceeded). -/
structure GenCfg where
  factory : Nat → FactoryResult
  predicate : Err → Bool
  timeout : Option ℤ
  onError : Option (Err → Option Int)
  consumer : Nat → ConsumerResp
  innerFuel : Nat

/-- Mutable state of a streaming run: `remaining_timeout_budget` (the
Python value `None` is `none`), the wall clock, the last value of
`start_timestamp` (`none` while the variable is still unassigned), the
index of the next consumer response, and the event trace so far. -/
structure GSt where
  remaining : Option ℤ
  now : ℤ
  startTs : Option ℤ
  yIdx : Nat
  trace : List Ev
deriving DecidableEq

/-- How the attempt body (the outer `try` of the source) ended: the
whole run terminates, or a retryable error was recorded and the loop
proceeds to `on_error` and the backoff sleep. -/
inductive InnerEnd where
  | endRun : RunResult → InnerEnd
  | retryable : Err → InnerEnd
  | fuelOut : InnerEnd
deriving DecidableEq

/-- The `finally` release of the active stream, as a trace fragment. -/
def closeIf (streamOpen : Bool) (k : Nat) : List Ev :=
  if streamOpen then [Ev.closeS k] else []

/-- The `except (Exception, asyncio.CancelledError)` handler (lines 162
to 171 of the source) followed by the `finally` clause: re-raise when
the classifier rejects the error and it is not a timeout error;
otherwise record it as `last_exc` and charge the budget with the time
elapsed since `start_timestamp` — reading that variable before any pull
ever started is the `UnboundLocalError` of the source.  `streamOpen`
tells whether the active stream is still suspended (so that the
`finally` `aclose` actually releases it). -/
def handleExc (cfg : GenCfg) (k : Nat) (streamOpen : Bool) (e : Err) (st : GSt) :
    GSt × InnerEnd :=
  if cfg.predicate e = false ∧ e.timeoutLike = false then
    ({st with trace := st.trace ++ closeIf streamOpen k}, .endRun (.fatal e))
  else
    let st1 := {st with trace := st.trace ++ [Ev.failEv e]}
    match st1.remaining with
    | none => ({st1 with trace := st1.trace ++ closeIf streamOpen k}, .retryable e)
    | some r =>
      match st1.startTs with
      | none => ({st1 with trace := st1.trace ++ closeIf streamOpen k}, .endRun .nameError)
      | some ts =>
        ({st1 with remaining := some (r - (st1.now - ts)),
                   trace := st1.trace ++ closeIf streamOpen k}, .retryable e)

/-- The forwarding loop of one attempt (the `while True` of the source,
lines 126 to 155): check the budget, pull from the k-th stream bounded
by the remaining budget, yield the value to the consumer and react to
its response.  Comparing the budget with `0` while it is `None` raises
the `TypeError` of the source; an exhausted budget raises the causeless
`RetryError` of line 128, which is itself caught by the broad `except`
clause. -/
def genPullLoop (cfg : GenCfg) (k : Nat) (s : StreamBeh) :
    Nat → Nat → GSt → GSt × InnerEnd
  | 0, _, st => (st, .fuelOut)
  | fuel + 1, pullIdx, st =>
    match st.remaining with
    | none => handleExc cfg k true Err.noneCmpTypeError st
    | some r =>
      if r ≤ 0 then handleExc cfg k true Err.budgetRetryError st
      else
        let p := s.pulls pullIdx
        if cfg.timeout.isSome ∧ r ≤ p.dur then
          handleExc cfg k true Err.timeoutError
            {st with now := st.now + r, startTs := some st.now}
        else
          let st1 : GSt := {st with startTs := some st.now, now := st.now + p.dur}
          match p.kind with
          | .yields v =>
            let st2 : GSt := {st1 with remaining := some (r - p.dur),
                                       trace := st1.trace ++ [Ev.yieldVal v]}
            match cfg.consumer st2.yIdx with
            | .next => genPullLoop cfg k s fuel (pullIdx + 1) {st2 with yIdx := st2.yIdx + 1}
            | .close =>
              ({st2 with yIdx := st2.yIdx + 1,
                         trace := st2.trace ++ [Ev.closeS k]}, .endRun .done)
            | .throw e =>
              let st3 : GSt := {st2 with yIdx := st2.yIdx + 1,
                                         trace := st2.trace ++ [Ev.throwEv k e]}
              match s.throwResp e with
              | .raises e2 =>
                handleExc cfg k false e2 {st3 with trace := st3.trace ++ [Ev.closeS k]}
              | .exhausts =>
                ({st3 with trace := st3.trace ++ [Ev.closeS k]}, .endRun .done)
              | .yields _ => genPullLoop cfg k s fuel (pullIdx + 1) st3
          | .exhausts =>
            ({st1 with trace := st1.trace ++ [Ev.closeS k]}, .endRun .done)
          | .fails e =>
            handleExc cfg k false e {st1 with trace := st1.trace ++ [Ev.closeS k]}

/-- One attempt of the streaming run: call the factory (line 123) and
run the forwarding loop.  A factory call that raises goes straight to
the broad `except` handler with no stream open. -/
def genAttempt (cfg : GenCfg) (k : Nat) (st : GSt) : GSt × InnerEnd :=
  match cfg.factory k with
  | .raises e => handleExc cfg k false e st
  | .stream s =>
    genPullLoop cfg k s cfg.innerFuel 0 {st with trace := st.trace ++ [Ev.openS k]}

/-- The `on_error` step of the streaming retry loop (lines 173 to 176 of
the source): call the hook with the recorded error; a non-`None` result
is yielded to the consumer, whose reaction may itself end the run (an
`aclose` at that yield closes the wrapper; an `athrow` there propagates
uncaught, since this yield is outside every `try`). -/
def genHook (cfg : GenCfg) (err : Err) (st1 : GSt) : GSt × Option RunResult :=
  match cfg.onError with
  | none => (st1, none)
  | some hook =>
    match hook err with
    | none => ({st1 with trace := st1.trace ++ [Ev.onErrEv err]}, none)
    | some v =>
      match cfg.consumer st1.yIdx with
      | .next =>
        ({st1 with yIdx := st1.yIdx + 1,
                   trace := st1.trace ++ [Ev.onErrEv err, Ev.yieldVal v]}, none)
      | .close =>
        ({st1 with yIdx := st1.yIdx + 1,
                   trace := st1.trace ++ [Ev.onErrEv err, Ev.yieldVal v]}, some .done)
      | .throw e2 =>
        ({st1 with yIdx := st1.yIdx + 1,
                   trace := st1.trace ++ [Ev.onErrEv err, Ev.yieldVal v]},
          some (.fatal e2))

/-- The retry loop of `retry_target_generator` (lines 121 to 196): one
iteration per sleep value; after a retryable failure run the `on_error`
hook (whose non-`None` result is yielded to the consumer), then check
the budget against the computed sleep, failing with a `RetryError`
chained to the last error when the remaining budget does not exceed the
sleep. -/
def genOuter (cfg : GenCfg) : Nat → GSt → List ℤ → Outcome
  | _, st, [] => ⟨.sleepsExhausted, st.trace⟩
  | k, st, sleep :: rest =>
    match genAttempt cfg k st with
    | (st1, .endRun r) => ⟨r, st1.trace⟩
    | (st1, .fuelOut) => ⟨.fuelOut, st1.trace⟩
    | (st1, .retryable err) =>
      match genHook cfg err st1 with
      | (st4, some r) => ⟨r, st4.trace⟩
      | (st4, none) =>
        match st4.remaining with
        | some r =>
          if r ≤ sleep then ⟨.deadline err, st4.trace⟩
          else
            genOuter cfg (k + 1)
              {st4 with remaining := some (r - sleep), now := st4.now + sleep,
                        trace := st4.trace ++ [Ev.sleepEv sleep (some r)]} rest
        | none =>
          genOuter cfg (k + 1)
            {st4 with now := st4.now + sleep,
                      trace := st4.trace ++ [Ev.sleepEv sleep none]} rest

/-- `retry_target_generator`: `remaining_timeout_budget` starts as the
configured timeout when truthy and as `None` otherwise (line 119); the
run starts at wall-clock time 0 with `start_timestamp` unassigned. -/
def retry_target_generator (cfg : GenCfg) (sleeps : List ℤ) : Outcome :=
  let remaining : Option ℤ :=
    match cfg.timeout with
    | some t => if t = 0 then none else some t
    | none => none
  genOuter cfg 0 ⟨remaining, 0, none, 0, []⟩ sleeps

/-! ## The `AsyncRetry` policy object -/

/-- The configuration fields stored by `AsyncRetry.__init__`.  Callables
(`predicate`, `on_error`) are modelled by opaque identifiers; `deadlineF`
mirrors the `_deadline` attribute, set to the same value as `_timeout`.
The constructor also stores the `is_generator` override. -/
structure AsyncRetry where
  predicate : Nat
  initial : ℤ
  maximum : ℤ
  multiplier : ℤ
  timeout : Option ℤ
  deadlineF : Option ℤ
  on_error : Option Nat
  is_generator : Option Bool
deriving DecidableEq, Repr

/-- `AsyncRetry.__init__` without the deprecated `deadline` kwarg:
`_timeout` takes the given timeout and `_deadline` copies it. -/
def AsyncRetry.make (predicate : Nat) (initial maximum multiplier : ℤ)
    (timeout : Option ℤ) (on_error : Option Nat) (is_generator : Option Bool) :
    AsyncRetry :=
  ⟨predicate, initial, maximum, multiplier, timeout, timeout, on_error, is_generator⟩

/-- Python `x or y` for an optional float argument against a float
default: `None` and `0` are falsy and select the old value. -/
def pyOrQ (a : Option ℤ) (b : ℤ) : ℤ :=
  match a with
  | some x => if x = 0 then b else x
  | none => b

/-- Python `x or y` for an optional float argument against an optional
float default. -/
def pyOrOptQ (a : Option ℤ) (b : Option ℤ) : Option ℤ :=
  match a with
  | some x => if x = 0 then b else some x
  | none => b

/-- `AsyncRetry._replace` (lines 394 to 410): every field is combined
with the old value using Python `or`, and the result is built by calling
the constructor — which does not receive `is_generator`, so the new
instance gets the constructor default `None` for it. -/
def AsyncRetry._replace (self : AsyncRetry) (predicate : Option Nat)
    (initial maximum multiplier timeout : Option ℤ) (on_error : Option Nat) :
    AsyncRetry :=
  AsyncRetry.make
    (predicate.getD self.predicate)
    (pyOrQ initial self.initial)
    (pyOrQ maximum self.maximum)
    (pyOrQ multiplier self.multiplier)
    (pyOrOptQ timeout self.timeout)
    (match on_error with
     | some f => some f
     | none => self.on_error)
    none

/-- `AsyncRetry.with_timeout`. -/
def AsyncRetry.with_timeout (self : AsyncRetry) (timeout : ℤ) : AsyncRetry :=
  self._replace none none none none (some timeout) none

/-- `AsyncRetry.with_deadline` (deprecated alias of `with_timeout`). -/
def AsyncRetry.with_deadline (self : AsyncRetry) (deadline : ℤ) : AsyncRetry :=
  self._replace none none none none (some deadline) none

/-- `AsyncRetry.with_predicate`. -/
def AsyncRetry.with_predicate (self : AsyncRetry) (predicate : Nat) : AsyncRetry :=
  self._replace (some predicate) none none none none none

/-- `AsyncRetry.with_delay`. -/
def AsyncRetry.with_delay (self : AsyncRetry)
    (initial maximum multiplier : Option ℤ) : AsyncRetry :=
  self._replace none initial maximum multiplier none none

/-! ## Trace observations -/

/-- Projection of a trace to its stream open/release events:
`(true, k)` for the creation of stream `k`, `(false, k)` for its
release. -/
def ocList : List Ev → List (Bool × Nat)
  | [] => []
  | Ev.openS k :: rest => (true, k) :: ocList rest
  | Ev.closeS k :: rest => (false, k) :: ocList rest
  | _ :: rest => ocList rest

/-- An open/release projection is well bracketed when it is an
alternation of an open immediately followed by the release of the very
same stream: at most one stream is ever open, each stream is released
before the next one is created, and no stream stays open at the end. -/
def pairedOC : List (Bool × Nat) → Bool
  | [] => true
  | (true, j) :: (false, j2) :: rest => j == j2 && pairedOC rest
  | _ => false

/-- The retryable errors recorded into `last_exc`, in order. -/
def failList : List Ev → List Err
  | [] => []
  | Ev.failEv e :: rest => e :: failList rest
  | _ :: rest => failList rest

/-- The values the consumer receives, in order. -/
def yieldsOf : List Ev → List Int
  | [] => []
  | Ev.yieldVal v :: rest => v :: yieldsOf rest
  | _ :: rest => yieldsOf rest

theorem ocList_append (l1 l2 : List Ev) :
    ocList (l1 ++ l2) = ocList l1 ++ ocList l2 := by
  induction l1 with
  | nil => rfl
  | cons e rest ih => cases e <;> simp [ocList, ih]

theorem failList_append (l1 l2 : List Ev) :
    failList (l1 ++ l2) = failList l1 ++ failList l2 := by
  induction l1 with
  | nil => rfl
  | cons e rest ih => cases e <;> simp [failList, ih]

theorem yieldsOf_append (l1 l2 : List Ev) :
    yieldsOf (l1 ++ l2) = yieldsOf l1 ++ yieldsOf l2 := by
  induction l1 with
  | nil => rfl
  | cons e rest ih => cases e <;> simp [yieldsOf, ih]

theorem ocList_closeIf (b : Bool) (k : Nat) :
    ocList (closeIf b k) = if b then [(false, k)] else [] := by
  cases b <;> rfl

theorem failList_closeIf (b : Bool) (k : Nat) : failList (closeIf b k) = [] := by
  cases b <;> rfl

theorem getLast?_append_singleton {α : Type} (l : List α) (a : α) :
    (l ++ [a]).getLast? = some a :=
  List.getLast?_append_cons l a []

/-! ## Properties of the broad except handler -/

theorem handleExc_cases (cfg : GenCfg) (k : Nat) (op : Bool) (e : Err) (st : GSt) :
    (handleExc cfg k op e st =
       ({st with trace := st.trace ++ closeIf op k}, .endRun (.fatal e)))
    ∨ (handleExc cfg k op e st =
       ({st with trace := st.trace ++ [Ev.failEv e] ++ closeIf op k}, .endRun .nameError))
    ∨ (∃ rem, handleExc cfg k op e st =
       ({st with remaining := rem,
                 trace := st.trace ++ [Ev.failEv e] ++ closeIf op k}, .retryable e)) := by
  unfold handleExc
  split
  · exact Or.inl rfl
  · cases hrem : st.remaining with
    | none =>
      refine Or.inr (Or.inr ⟨st.remaining, ?_⟩)
      simp [hrem]
    | some r =>
      cases hts : st.startTs with
      | none => simp [hrem, hts]
      | some ts =>
        refine Or.inr (Or.inr ⟨some (r - (st.now - ts)), ?_⟩)
        simp [hrem, hts]

theorem handleExc_ne_fuelOut (cfg : GenCfg) (k : Nat) (op : Bool) (e : Err) (st : GSt) :
    (handleExc cfg k op e st).2 ≠ .fuelOut := by
  rcases handleExc_cases cfg k op e st with h | h | ⟨rem, h⟩ <;> simp [h]

theorem handleExc_ne_deadline (cfg : GenCfg) (k : Nat) (op : Bool) (e : Err) (st : GSt)
    (c : Err) : (handleExc cfg k op e st).2 ≠ .endRun (.deadline c) := by
  rcases handleExc_cases cfg k op e st with h | h | ⟨rem, h⟩ <;> simp [h]

theorem handleExc_oc (cfg : GenCfg) (k : Nat) (op : Bool) (e : Err) (st : GSt) :
    ocList (handleExc cfg k op e st).1.trace = ocList st.trace ++ ocList (closeIf op k) := by
  rcases handleExc_cases cfg k op e st with h | h | ⟨rem, h⟩ <;>
    simp [h, ocList_append, ocList]

theorem handleExc_retryable (cfg : GenCfg) (k : Nat) (op : Bool) (e : Err) (st : GSt)
    (e2 : Err) (h : (handleExc cfg k op e st).2 = .retryable e2) :
    e2 = e ∧
      failList (handleExc cfg k op e st).1.trace = failList st.trace ++ [e] := by
  rcases handleExc_cases cfg k op e st with h2 | h2 | ⟨rem, h2⟩ <;> rw [h2] at h ⊢ <;>
    simp_all [failList_append, failList, failList_closeIf]

theorem handleExc_fatal (cfg : GenCfg) (k : Nat) (op : Bool) (e : Err) (st : GSt)
    (e2 : Err) (h : (handleExc cfg k op e st).2 = .endRun (.fatal e2)) :
    e2 = e ∧
      failList (handleExc cfg k op e st).1.trace = failList st.trace := by
  rcases handleExc_cases cfg k op e st with h2 | h2 | ⟨rem, h2⟩ <;> rw [h2] at h ⊢ <;>
    simp_all [failList_append, failList, failList_closeIf]

theorem handleExc_sleep_sub (cfg : GenCfg) (k : Nat) (op : Bool) (e : Err) (st : GSt)
    (s : ℤ) (r : Option ℤ) (h : Ev.sleepEv s r ∈ (handleExc cfg k op e st).1.trace) :
    Ev.sleepEv s r ∈ st.trace := by
  rcases handleExc_cases cfg k op e st with h2 | h2 | ⟨rem, h2⟩ <;> rw [h2] at h <;>
    cases op <;> simp_all [closeIf]

theorem handleExc_isSome (cfg : GenCfg) (k : Nat) (op : Bool) (e : Err) (st : GSt) :
    (handleExc cfg k op e st).1.remaining.isSome = st.remaining.isSome := by
  unfold handleExc
  split
  · rfl
  · cases hrem : st.remaining with
    | none => simp [hrem]
    | some r =>
      cases hts : st.startTs with
      | none => simp [hrem, hts]
      | some ts => simp [hrem, hts]

/-! ## Properties of the forwarding loop -/

/-- Open/release events contributed by the end of the forwarding loop:
every exit except running out of model fuel has released stream `k`. -/
def ocTail (k : Nat) : InnerEnd → List (Bool × Nat)
  | .fuelOut => []
  | _ => [(false, k)]

theorem ocTail_handleExc (cfg : GenCfg) (k : Nat) (op : Bool) (e : Err) (st : GSt) :
    ocTail k (handleExc cfg k op e st).2 = [(false, k)] := by
  rcases handleExc_cases cfg k op e st with h | h | ⟨rem, h⟩ <;> simp [h, ocTail]

theorem genPullLoop_oc (cfg : GenCfg) (k : Nat) (s : StreamBeh) :
    ∀ fuel pullIdx st,
      ocList (genPullLoop cfg k s fuel pullIdx st).1.trace =
        ocList st.trace ++ ocTail k (genPullLoop cfg k s fuel pullIdx st).2 := by
  intro fuel
  induction fuel with
  | zero => intro pullIdx st; simp [genPullLoop, ocTail]
  | succ n ih =>
    intro pullIdx st
    simp only [genPullLoop]
    split
    · rw [handleExc_oc, ocTail_handleExc, ocList_closeIf]; simp
    · split
      · rw [handleExc_oc, ocTail_handleExc, ocList_closeIf]; simp
      · split
        · rw [handleExc_oc, ocTail_handleExc, ocList_closeIf]; simp
        · split
          · -- the pull yields a value
            split
            · -- consumer pulls again
              rw [ih]
              simp [ocList_append, ocList]
            · -- consumer closes the wrapper
              simp [ocList_append, ocList, ocTail]
            · -- consumer injects an error
              rename_i e hc
              cases ht : s.throwResp e
              · rw [handleExc_oc, ocTail_handleExc, ocList_closeIf]
                simp [ocList_append, ocList]
              · simp [ocList_append, ocList, ocTail]
              · rw [ih]
                simp [ocList_append, ocList]
          · -- the pull ends with StopAsyncIteration
            simp [ocList_append, ocList, ocTail]
          · -- the pull raises
            rw [handleExc_oc, ocTail_handleExc, ocList_closeIf]
            simp [ocList_append, ocList]

theorem genPullLoop_fail (cfg : GenCfg) (k : Nat) (s : StreamBeh) :
    ∀ fuel pullIdx st e,
      (genPullLoop cfg k s fuel pullIdx st).2 = .retryable e →
      failList (genPullLoop cfg k s fuel pullIdx st).1.trace =
        failList st.trace ++ [e] := by
  intro fuel
  induction fuel with
  | zero => intro pullIdx st e h; simp [genPullLoop] at h
  | succ n ih =>
    intro pullIdx st e
    simp only [genPullLoop]
    split
    · intro h
      rcases handleExc_retryable cfg k true _ st e h with ⟨he, hf⟩
      rw [hf, he]
    · split
      · intro h
        rcases handleExc_retryable cfg k true _ st e h with ⟨he, hf⟩
        rw [hf, he]
      · split
        · intro h
          rcases handleExc_retryable cfg k true _ _ e h with ⟨he, hf⟩
          rw [hf, he]
        · split
          · split
            · intro h
              rw [ih _ _ e h]
              simp [failList_append, failList]
            · intro h; simp at h
            · rename_i e0 hc
              cases ht : s.throwResp e0
              · intro h
                rcases handleExc_retryable cfg k false _ _ e h with ⟨he, hf⟩
                rw [hf, he]
                simp [failList_append, failList]
              · intro h; simp at h
              · intro h
                rw [ih _ _ e h]
                simp [failList_append, failList]
          · intro h; simp at h
          · intro h
            rcases handleExc_retryable cfg k false _ _ e h with ⟨he, hf⟩
            rw [hf, he]
            simp [failList_append, failList]

theorem genPullLoop_ne_deadline (cfg : GenCfg) (k : Nat) (s : StreamBeh) :
    ∀ fuel pullIdx st c,
      (genPullLoop cfg k s fuel pullIdx st).2 ≠ .endRun (.deadline c) := by
  intro fuel
  induction fuel with
  | zero => intro pullIdx st c; simp [genPullLoop]
  | succ n ih =>
    intro pullIdx st c
    simp only [genPullLoop]
    split
    · exact handleExc_ne_deadline cfg k true _ st c
    · split
      · exact handleExc_ne_deadline cfg k true _ st c
      · split
        · exact handleExc_ne_deadline cfg k true _ _ c
        · split
          · split
            · exact ih _ _ c
            · simp
            · rename_i e0 hc
              cases ht : s.throwResp e0
              · exact handleExc_ne_deadline cfg k false _ _ c
              · simp
              · exact ih _ _ c
          · simp
          · exact handleExc_ne_deadline cfg k false _ _ c

theorem genPullLoop_sleep_sub (cfg : GenCfg) (k : Nat) (s : StreamBeh) :
    ∀ fuel pullIdx st q ro,
      Ev.sleepEv q ro ∈ (genPullLoop cfg k s fuel pullIdx st).1.trace →
      Ev.sleepEv q ro ∈ st.trace := by
  intro fuel
  induction fuel with
  | zero => intro pullIdx st q ro h; simpa [genPullLoop] using h
  | succ n ih =>
    intro pullIdx st q ro
    simp only [genPullLoop]
    split
    · exact handleExc_sleep_sub cfg k true _ st q ro
    · split
      · exact handleExc_sleep_sub cfg k true _ st q ro
      · split
        · exact handleExc_sleep_sub cfg k true _ _ q ro
        · split
          · split
            · intro h
              have h2 := ih _ _ q ro h
              simpa using h2
            · intro h
              simpa using h
            · rename_i e0 hc
              cases ht : s.throwResp e0
              · intro h
                have h2 := handleExc_sleep_sub cfg k false _ _ q ro h
                simpa using h2
              · intro h
                simpa using h
              · intro h
                have h2 := ih _ _ q ro h
                simpa using h2
          · intro h
            simpa using h
          · intro h
            have h2 := handleExc_sleep_sub cfg k false _ _ q ro h
            simpa using h2

theorem genPullLoop_isSome (cfg : GenCfg) (k : Nat) (s : StreamBeh) :
    ∀ fuel pullIdx st,
      (genPullLoop cfg k s fuel pullIdx st).1.remaining.isSome =
        st.remaining.isSome := by
  intro fuel
  induction fuel with
  | zero => intro pullIdx st; simp [genPullLoop]
  | succ n ih =>
    intro pullIdx st
    simp only [genPullLoop]
    split
    · exact handleExc_isSome cfg k true _ st
    · rename_i r hrem
      split
      · exact handleExc_isSome cfg k true _ st
      · split
        · rw [handleExc_isSome]
        · split
          · split
            · simp [ih, hrem]
            · simp [hrem]
            · rename_i e0 hc
              cases ht : s.throwResp e0
              · rw [handleExc_isSome]; simp [hrem]
              · simp [hrem]
              · simp [ih, hrem]
          · simp [hrem]
          · rw [handleExc_isSome]

theorem ocTail_of_ne (k : Nat) (x : InnerEnd) (h : x ≠ .fuelOut) :
    ocTail k x = [(false, k)] := by
  cases x with
  | endRun r => rfl
  | retryable e => rfl
  | fuelOut => exact absurd rfl h

theorem genAttempt_oc (cfg : GenCfg) (k : Nat) (st : GSt) :
    (ocList (genAttempt cfg k st).1.trace = ocList st.trace ∧
       (genAttempt cfg k st).2 ≠ .fuelOut)
    ∨ (ocList (genAttempt cfg k st).1.trace =
         ocList st.trace ++ [(true, k), (false, k)] ∧
       (genAttempt cfg k st).2 ≠ .fuelOut)
    ∨ (genAttempt cfg k st).2 = .fuelOut := by
  unfold genAttempt
  cases hf : cfg.factory k with
  | raises e =>
    refine Or.inl ⟨?_, handleExc_ne_fuelOut cfg k false e st⟩
    rw [handleExc_oc, ocList_closeIf]
    simp
  | stream s =>
    by_cases hfo :
        (genPullLoop cfg k s cfg.innerFuel 0
          {st with trace := st.trace ++ [Ev.openS k]}).2 = InnerEnd.fuelOut
    · exact Or.inr (Or.inr hfo)
    · refine Or.inr (Or.inl ⟨?_, hfo⟩)
      rw [genPullLoop_oc, ocTail_of_ne _ _ hfo]
      simp [ocList_append, ocList]

theorem genAttempt_fail (cfg : GenCfg) (k : Nat) (st : GSt) (e : Err)
    (h : (genAttempt cfg k st).2 = .retryable e) :
    failList (genAttempt cfg k st).1.trace = failList st.trace ++ [e] := by
  unfold genAttempt at h ⊢
  cases hf : cfg.factory k with
  | raises e0 =>
    rw [hf] at h
    rcases handleExc_retryable cfg k false e0 st e h with ⟨he, hfl⟩
    rw [hfl, he]
  | stream s =>
    rw [hf] at h
    rw [genPullLoop_fail cfg k s cfg.innerFuel 0 _ e h]
    simp [failList_append, failList]

theorem genAttempt_ne_deadline (cfg : GenCfg) (k : Nat) (st : GSt) (c : Err) :
    (genAttempt cfg k st).2 ≠ .endRun (.deadline c) := by
  unfold genAttempt
  cases hf : cfg.factory k with
  | raises e0 => exact handleExc_ne_deadline cfg k false e0 st c
  | stream s => exact genPullLoop_ne_deadline cfg k s cfg.innerFuel 0 _ c

theorem genAttempt_sleep_sub (cfg : GenCfg) (k : Nat) (st : GSt) (q : ℤ)
    (ro : Option ℤ) (h : Ev.sleepEv q ro ∈ (genAttempt cfg k st).1.trace) :
    Ev.sleepEv q ro ∈ st.trace := by
  unfold genAttempt at h
  cases hf : cfg.factory k with
  | raises e0 =>
    rw [hf] at h
    exact handleExc_sleep_sub cfg k false e0 st q ro h
  | stream s =>
    rw [hf] at h
    have h2 := genPullLoop_sleep_sub cfg k s cfg.innerFuel 0 _ q ro h
    simpa using h2

theorem genAttempt_isSome (cfg : GenCfg) (k : Nat) (st : GSt) :
    (genAttempt cfg k st).1.remaining.isSome = st.remaining.isSome := by
  unfold genAttempt
  cases hf : cfg.factory k with
  | raises e0 => exact handleExc_isSome cfg k false e0 st
  | stream s => rw [genPullLoop_isSome]

/-! ## Properties of the outer retry loop -/

theorem genHook_cases (cfg : GenCfg) (err : Err) (st1 : GSt) :
    ∃ L, (genHook cfg err st1).1.trace = st1.trace ++ L ∧
      ocList L = [] ∧ failList L = [] ∧ (∀ q ro, Ev.sleepEv q ro ∉ L) ∧
      (genHook cfg err st1).1.remaining = st1.remaining := by
  unfold genHook
  split
  · exact ⟨[], by simp, rfl, rfl, by simp, rfl⟩
  · split
    · exact ⟨[Ev.onErrEv err], by simp, rfl, rfl, by simp, rfl⟩
    · rename_i v hv
      split
      · exact ⟨[Ev.onErrEv err, Ev.yieldVal v], by simp, rfl, rfl, by simp, rfl⟩
      · exact ⟨[Ev.onErrEv err, Ev.yieldVal v], by simp, rfl, rfl, by simp, rfl⟩
      · exact ⟨[Ev.onErrEv err, Ev.yieldVal v], by simp, rfl, rfl, by simp, rfl⟩

theorem pairedOC_pair (j : Nat) (L : List (Bool × Nat)) :
    pairedOC ((true, j) :: (false, j) :: L) = pairedOC L := by
  simp [pairedOC]

theorem genOuter_nil (cfg : GenCfg) (k : Nat) (st : GSt) :
    genOuter cfg k st [] = ⟨.sleepsExhausted, st.trace⟩ := rfl

theorem genOuter_cons_endRun (cfg : GenCfg) (k : Nat) (st : GSt) (sleep : ℤ)
    (rest : List ℤ) (st1 : GSt) (r : RunResult)
    (hA : genAttempt cfg k st = (st1, .endRun r)) :
    genOuter cfg k st (sleep :: rest) = ⟨r, st1.trace⟩ := by
  simp [genOuter, hA]

theorem genOuter_cons_fuelOut (cfg : GenCfg) (k : Nat) (st : GSt) (sleep : ℤ)
    (rest : List ℤ) (st1 : GSt)
    (hA : genAttempt cfg k st = (st1, .fuelOut)) :
    genOuter cfg k st (sleep :: rest) = ⟨.fuelOut, st1.trace⟩ := by
  simp [genOuter, hA]

theorem genOuter_cons_hookEnd (cfg : GenCfg) (k : Nat) (st : GSt) (sleep : ℤ)
    (rest : List ℤ) (st1 st4 : GSt) (err : Err) (r : RunResult)
    (hA : genAttempt cfg k st = (st1, .retryable err))
    (hH : genHook cfg err st1 = (st4, some r)) :
    genOuter cfg k st (sleep :: rest) = ⟨r, st4.trace⟩ := by
  simp [genOuter, hA, hH]

theorem genOuter_cons_deadline (cfg : GenCfg) (k : Nat) (st : GSt) (sleep : ℤ)
    (rest : List ℤ) (st1 st4 : GSt) (err : Err) (r : ℤ)
    (hA : genAttempt cfg k st = (st1, .retryable err))
    (hH : genHook cfg err st1 = (st4, none))
    (hrem : st4.remaining = some r) (hs : r ≤ sleep) :
    genOuter cfg k st (sleep :: rest) = ⟨.deadline err, st4.trace⟩ := by
  simp [genOuter, hA, hH, hrem, hs]

theorem genOuter_cons_sleep (cfg : GenCfg) (k : Nat) (st : GSt) (sleep : ℤ)
    (rest : List ℤ) (st1 st4 : GSt) (err : Err) (r : ℤ)
    (hA : genAttempt cfg k st = (st1, .retryable err))
    (hH : genHook cfg err st1 = (st4, none))
    (hrem : st4.remaining = some r) (hs : ¬ r ≤ sleep) :
    genOuter cfg k st (sleep :: rest) =
      genOuter cfg (k + 1)
        {st4 with remaining := some (r - sleep), now := st4.now + sleep,
                  trace := st4.trace ++ [Ev.sleepEv sleep (some r)]} rest := by
  simp [genOuter, hA, hH, hrem, hs]

theorem genOuter_cons_sleepNone (cfg : GenCfg) (k : Nat) (st : GSt) (sleep : ℤ)
    (rest : List ℤ) (st1 st4 : GSt) (err : Err)
    (hA : genAttempt cfg k st = (st1, .retryable err))
    (hH : genHook cfg err st1 = (st4, none))
    (hrem : st4.remaining = none) :
    genOuter cfg k st (sleep :: rest) =
      genOuter cfg (k + 1)
        {st4 with now := st4.now + sleep,
                  trace := st4.trace ++ [Ev.sleepEv sleep none]} rest := by
  simp [genOuter, hA, hH, hrem]

theorem genOuter_oc (cfg : GenCfg) : ∀ sleeps k st,
    (genOuter cfg k st sleeps).result ≠ .fuelOut →
    ∃ L, ocList (genOuter cfg k st sleeps).trace = ocList st.trace ++ L ∧
      pairedOC L = true := by
  intro sleeps
  induction sleeps with
  | nil => intro k st h; exact ⟨[], by simp [genOuter_nil], rfl⟩
  | cons sleep rest ih =>
    intro k st h
    have hatt := genAttempt_oc cfg k st
    rcases hA : genAttempt cfg k st with ⟨st1, ie⟩
    rw [hA] at hatt
    have hL1 : ie ≠ InnerEnd.fuelOut →
        ∃ L1, ocList st1.trace = ocList st.trace ++ L1 ∧
          pairedOC L1 = true ∧
          ∀ L2, pairedOC L2 = true → pairedOC (L1 ++ L2) = true := by
      intro hne
      rcases hatt with ⟨hoc, _⟩ | ⟨hoc, _⟩ | hfo
      · exact ⟨[], by simpa using hoc, rfl, fun L2 hp2 => by simpa using hp2⟩
      · refine ⟨[(true, k), (false, k)], by simpa using hoc, by simp [pairedOC],
          fun L2 hp2 => ?_⟩
        rw [List.cons_append, List.cons_append, pairedOC_pair]
        exact hp2
      · exact absurd (by simpa using hfo) hne
    cases ie with
    | endRun r =>
      rcases hL1 (by simp) with ⟨L1, hoc, hp1, _⟩
      rw [genOuter_cons_endRun cfg k st sleep rest st1 r hA] at h ⊢
      exact ⟨L1, hoc, hp1⟩
    | fuelOut =>
      rw [genOuter_cons_fuelOut cfg k st sleep rest st1 hA] at h
      simp at h
    | retryable err =>
      rcases hL1 (by simp) with ⟨L1, hoc1, hp1, hcomp⟩
      rcases genHook_cases cfg err st1 with ⟨LH, hH1, hH2, hH3, hH4, hH5⟩
      rcases hH : genHook cfg err st1 with ⟨st4, orr⟩
      rw [hH] at hH1 hH5
      simp only at hH1 hH5
      have hoc4 : ocList st4.trace = ocList st.trace ++ L1 := by
        rw [hH1, ocList_append, hH2, hoc1]; simp
      cases orr with
      | some r =>
        rw [genOuter_cons_hookEnd cfg k st sleep rest st1 st4 err r hA hH] at h ⊢
        exact ⟨L1, hoc4, hp1⟩
      | none =>
        cases hrem : st4.remaining with
        | some r =>
          by_cases hs : r ≤ sleep
          · rw [genOuter_cons_deadline cfg k st sleep rest st1 st4 err r hA hH hrem hs]
            exact ⟨L1, hoc4, hp1⟩
          · rw [genOuter_cons_sleep cfg k st sleep rest st1 st4 err r hA hH hrem hs] at h ⊢
            rcases ih (k + 1) _ h with ⟨L2, hoc2, hp2⟩
            refine ⟨L1 ++ L2, ?_, hcomp L2 hp2⟩
            rw [hoc2]
            simp only [ocList_append, hoc4, ocList]
            simp
        | none =>
          rw [genOuter_cons_sleepNone cfg k st sleep rest st1 st4 err hA hH hrem] at h ⊢
          rcases ih (k + 1) _ h with ⟨L2, hoc2, hp2⟩
          refine ⟨L1 ++ L2, ?_, hcomp L2 hp2⟩
          rw [hoc2]
          simp only [ocList_append, hoc4, ocList]
          simp

/-! ## Properties of the single-shot retry loop -/

theorem ssLoop_nil (cfg : SSCfg) (ddl : Option ℤ) (now : ℤ) (nA : Nat)
    (tr : List Ev) : ssLoop cfg ddl now nA tr [] = ⟨.sleepsExhausted, tr⟩ := by
  cases ddl <;> rfl

theorem ssLoop_cancel (cfg : SSCfg) (d now : ℤ) (nA : Nat) (tr : List Ev)
    (sleep : ℤ) (rest : List ℤ)
    (hb : d - now ≤ (cfg.attempts nA).dur ∨ d - now ≤ 0) :
    ssLoop cfg (some d) now nA tr (sleep :: rest) =
      ⟨.deadline Err.timeoutError, ssTr2 cfg tr nA Err.timeoutError⟩ := by
  have hd : d ≤ now + max (d - now) 0 := by
    rcases le_or_lt (d - now) 0 with h0 | h0
    · rw [max_eq_right h0]; linarith
    · rw [max_eq_left h0.le]; linarith
  rw [ssLoop, if_pos hb, if_pos hd]

theorem ssLoop_ok (cfg : SSCfg) (d now : ℤ) (nA : Nat) (tr : List Ev)
    (sleep : ℤ) (rest : List ℤ) (v : Int)
    (hb : ¬(d - now ≤ (cfg.attempts nA).dur ∨ d - now ≤ 0))
    (ho : (cfg.attempts nA).outcome = .ok v) :
    ssLoop cfg (some d) now nA tr (sleep :: rest) = ⟨.success v, ssTr1 tr nA⟩ := by
  rw [ssLoop, if_neg hb]
  split
  · rename_i v2 heq
    rw [ho] at heq
    injection heq with he
    rw [he]
  · rename_i e2 heq
    rw [ho] at heq
    cases heq

theorem ssLoop_fatal (cfg : SSCfg) (d now : ℤ) (nA : Nat) (tr : List Ev)
    (sleep : ℤ) (rest : List ℤ) (e : Err)
    (hb : ¬(d - now ≤ (cfg.attempts nA).dur ∨ d - now ≤ 0))
    (ho : (cfg.attempts nA).outcome = .error e)
    (hp : cfg.predicate e = false) (ht : e.timeoutLike = false) :
    ssLoop cfg (some d) now nA tr (sleep :: rest) = ⟨.fatal e, ssTr1 tr nA⟩ := by
  rw [ssLoop, if_neg hb]
  split
  · rename_i v2 heq
    rw [ho] at heq
    cases heq
  · rename_i e2 heq
    rw [ho] at heq
    injection heq with he
    subst he
    exact if_pos ⟨hp, ht⟩

theorem ssLoop_deadlineStep (cfg : SSCfg) (d now : ℤ) (nA : Nat) (tr : List Ev)
    (sleep : ℤ) (rest : List ℤ) (e : Err)
    (hb : ¬(d - now ≤ (cfg.attempts nA).dur ∨ d - now ≤ 0))
    (ho : (cfg.attempts nA).outcome = .error e)
    (hr : ¬(cfg.predicate e = false ∧ e.timeoutLike = false))
    (hd : d ≤ now + (cfg.attempts nA).dur) :
    ssLoop cfg (some d) now nA tr (sleep :: rest) = ⟨.deadline e, ssTr2 cfg tr nA e⟩ := by
  rw [ssLoop, if_neg hb]
  split
  · rename_i v2 heq
    rw [ho] at heq
    cases heq
  · rename_i e2 heq
    rw [ho] at heq
    injection heq with he
    subst he
    rw [if_neg hr, if_pos hd]

theorem ssLoop_continue (cfg : SSCfg) (d now : ℤ) (nA : Nat) (tr : List Ev)
    (sleep : ℤ) (rest : List ℤ) (e : Err)
    (hb : ¬(d - now ≤ (cfg.attempts nA).dur ∨ d - now ≤ 0))
    (ho : (cfg.attempts nA).outcome = .error e)
    (hr : ¬(cfg.predicate e = false ∧ e.timeoutLike = false))
    (hd : ¬(d ≤ now + (cfg.attempts nA).dur)) :
    ssLoop cfg (some d) now nA tr (sleep :: rest) =
      ssLoop cfg (some d)
        (now + (cfg.attempts nA).dur
          + min (d - (now + (cfg.attempts nA).dur)) sleep) (nA + 1)
        (ssTr2 cfg tr nA e
          ++ [Ev.sleepEv (min (d - (now + (cfg.attempts nA).dur)) sleep)
                (some (d - (now + (cfg.attempts nA).dur)))]) rest := by
  rw [ssLoop, if_neg hb]
  split
  · rename_i v2 heq
    rw [ho] at heq
    cases heq
  · rename_i e2 heq
    rw [ho] at heq
    injection heq with he
    subst he
    rw [if_neg hr, if_neg hd]

theorem ssLoop_none_ok (cfg : SSCfg) (now : ℤ) (nA : Nat) (tr : List Ev)
    (sleep : ℤ) (rest : List ℤ) (v : Int)
    (ho : (cfg.attempts nA).outcome = .ok v) :
    ssLoop cfg none now nA tr (sleep :: rest) = ⟨.success v, ssTr1 tr nA⟩ := by
  rw [ssLoop]
  split
  · rename_i v2 heq
    rw [ho] at heq
    injection heq with he
    rw [he]
  · rename_i e2 heq
    rw [ho] at heq
    cases heq

theorem ssLoop_none_fatal (cfg : SSCfg) (now : ℤ) (nA : Nat) (tr : List Ev)
    (sleep : ℤ) (rest : List ℤ) (e : Err)
    (ho : (cfg.attempts nA).outcome = .error e)
    (hp : cfg.predicate e = false) (ht : e.timeoutLike = false) :
    ssLoop cfg none now nA tr (sleep :: rest) = ⟨.fatal e, ssTr1 tr nA⟩ := by
  rw [ssLoop]
  split
  · rename_i v2 heq
    rw [ho] at heq
    cases heq
  · rename_i e2 heq
    rw [ho] at heq
    injection heq with he
    subst he
    exact if_pos ⟨hp, ht⟩

theorem ssLoop_none_continue (cfg : SSCfg) (now : ℤ) (nA : Nat) (tr : List Ev)
    (sleep : ℤ) (rest : List ℤ) (e : Err)
    (ho : (cfg.attempts nA).outcome = .error e)
    (hr : ¬(cfg.predicate e = false ∧ e.timeoutLike = false)) :
    ssLoop cfg none now nA tr (sleep :: rest) =
      ssLoop cfg none (now + (cfg.attempts nA).dur + sleep) (nA + 1)
        (ssTr2 cfg tr nA e ++ [Ev.sleepEv sleep none]) rest := by
  rw [ssLoop]
  split
  · rename_i v2 heq
    rw [ho] at heq
    cases heq
  · rename_i e2 heq
    rw [ho] at heq
    injection heq with he
    subst he
    exact if_neg hr

theorem ssTr1_sleep_sub (tr : List Ev) (nA : Nat) (q : ℤ) (ro : Option ℤ)
    (h : Ev.sleepEv q ro ∈ ssTr1 tr nA) : Ev.sleepEv q ro ∈ tr := by
  unfold ssTr1 at h
  simpa using h

theorem ssTr2_sleep_sub (cfg : SSCfg) (tr : List Ev) (nA : Nat) (e : Err)
    (q : ℤ) (ro : Option ℤ) (h : Ev.sleepEv q ro ∈ ssTr2 cfg tr nA e) :
    Ev.sleepEv q ro ∈ tr := by
  unfold ssTr2 at h
  cases hoe : cfg.hasOnError <;> rw [hoe] at h <;> simpa using h

theorem failList_ssTr2 (cfg : SSCfg) (tr : List Ev) (nA : Nat) (e : Err) :
    failList (ssTr2 cfg tr nA e) = failList tr ++ [e] := by
  unfold ssTr2
  cases hoe : cfg.hasOnError <;>
    simp [failList_append, failList]

/-- Within a run of the single-shot loop, every recorded sleep is at
most the remaining budget at that moment: the executor clips sleeps with
`min(time_to_deadline, sleep)` and hence never sleeps past the
deadline. -/
theorem ssLoop_sleepLe (cfg : SSCfg) : ∀ sleeps ddl now nA tr,
    (∀ q r, Ev.sleepEv q (some r) ∈ tr → q ≤ r) →
    ∀ q r, Ev.sleepEv q (some r) ∈ (ssLoop cfg ddl now nA tr sleeps).trace →
      q ≤ r := by
  intro sleeps
  induction sleeps with
  | nil =>
    intro ddl now nA tr hst q r hm
    rw [ssLoop_nil] at hm
    exact hst q r hm
  | cons sleep rest ih =>
    intro ddl now nA tr hst q r
    cases ddl with
    | none =>
      cases ho : (cfg.attempts nA).outcome with
      | ok v =>
        rw [ssLoop_none_ok cfg now nA tr sleep rest v ho]
        intro hm
        exact hst q r (ssTr1_sleep_sub tr nA q _ hm)
      | error e =>
        by_cases hf : cfg.predicate e = false ∧ e.timeoutLike = false
        · rw [ssLoop_none_fatal cfg now nA tr sleep rest e ho hf.1 hf.2]
          intro hm
          exact hst q r (ssTr1_sleep_sub tr nA q _ hm)
        · rw [ssLoop_none_continue cfg now nA tr sleep rest e ho hf]
          refine ih none _ _ _ ?_ q r
          intro q2 r2 hm
          rcases List.mem_append.1 hm with hm | hm
          · exact hst q2 r2 (ssTr2_sleep_sub cfg tr nA e q2 _ hm)
          · simp at hm
    | some d =>
      by_cases hb : d - now ≤ (cfg.attempts nA).dur ∨ d - now ≤ 0
      · rw [ssLoop_cancel cfg d now nA tr sleep rest hb]
        intro hm
        exact hst q r (ssTr2_sleep_sub cfg tr nA _ q _ hm)
      · cases ho : (cfg.attempts nA).outcome with
        | ok v =>
          rw [ssLoop_ok cfg d now nA tr sleep rest v hb ho]
          intro hm
          exact hst q r (ssTr1_sleep_sub tr nA q _ hm)
        | error e =>
          by_cases hf : cfg.predicate e = false ∧ e.timeoutLike = false
          · rw [ssLoop_fatal cfg d now nA tr sleep rest e hb ho hf.1 hf.2]
            intro hm
            exact hst q r (ssTr1_sleep_sub tr nA q _ hm)
          · by_cases hd : d ≤ now + (cfg.attempts nA).dur
            · rw [ssLoop_deadlineStep cfg d now nA tr sleep rest e hb ho hf hd]
              intro hm
              exact hst q r (ssTr2_sleep_sub cfg tr nA e q _ hm)
            · rw [ssLoop_continue cfg d now nA tr sleep rest e hb ho hf hd]
              refine ih (some d) _ _ _ ?_ q r
              intro q2 r2 hm
              rcases List.mem_append.1 hm with hm | hm
              · exact hst q2 r2 (ssTr2_sleep_sub cfg tr nA e q2 _ hm)
              · simp at hm
                rcases hm with ⟨hq, hr⟩
                rw [hq, ← hr]
                exact min_le_left _ _

/-- Every deadline-exceeded result of the single-shot loop chains the
most recent recorded retryable error. -/
theorem ssLoop_deadline_last (cfg : SSCfg) : ∀ sleeps ddl now nA tr e,
    (ssLoop cfg ddl now nA tr sleeps).result = .deadline e →
    (failList (ssLoop cfg ddl now nA tr sleeps).trace).getLast? = some e := by
  intro sleeps
  induction sleeps with
  | nil =>
    intro ddl now nA tr e hm
    rw [ssLoop_nil] at hm
    simp at hm
  | cons sleep rest ih =>
    intro ddl now nA tr e
    cases ddl with
    | none =>
      cases ho : (cfg.attempts nA).outcome with
      | ok v =>
        rw [ssLoop_none_ok cfg now nA tr sleep rest v ho]
        intro hm
        simp at hm
      | error e0 =>
        by_cases hf : cfg.predicate e0 = false ∧ e0.timeoutLike = false
        · rw [ssLoop_none_fatal cfg now nA tr sleep rest e0 ho hf.1 hf.2]
          intro hm
          simp at hm
        · rw [ssLoop_none_continue cfg now nA tr sleep rest e0 ho hf]
          exact ih none _ _ _ e
    | some d =>
      by_cases hb : d - now ≤ (cfg.attempts nA).dur ∨ d - now ≤ 0
      · rw [ssLoop_cancel cfg d now nA tr sleep rest hb]
        intro hm
        simp at hm
        rw [hm, failList_ssTr2, getLast?_append_singleton]
      · cases ho : (cfg.attempts nA).outcome with
        | ok v =>
          rw [ssLoop_ok cfg d now nA tr sleep rest v hb ho]
          intro hm
          simp at hm
        | error e0 =>
          by_cases hf : cfg.predicate e0 = false ∧ e0.timeoutLike = false
          · rw [ssLoop_fatal cfg d now nA tr sleep rest e0 hb ho hf.1 hf.2]
            intro hm
            simp at hm
          · by_cases hd : d ≤ now + (cfg.attempts nA).dur
            · rw [ssLoop_deadlineStep cfg d now nA tr sleep rest e0 hb ho hf hd]
              intro hm
              simp at hm
              rw [← hm, failList_ssTr2, getLast?_append_singleton]
            · rw [ssLoop_continue cfg d now nA tr sleep rest e0 hb ho hf hd]
              exact ih (some d) _ _ _ e

theorem genHook_some (cfg : GenCfg) (err : Err) (st1 : GSt) (r : RunResult)
    (h : (genHook cfg err st1).2 = some r) :
    r = .done ∨ ∃ e2, cfg.consumer st1.yIdx = .throw e2 ∧ r = .fatal e2 := by
  unfold genHook at h
  split at h
  · cases h
  · split at h
    · cases h
    · split at h
      · cases h
      · injection h with h2
        exact Or.inl h2.symm
      · rename_i e2 hc
        injection h with h2
        exact Or.inr ⟨e2, hc, h2.symm⟩

/-- Within a streaming run, every sleep recorded with a tracked budget
is strictly below the remaining budget at that moment. -/
theorem genOuter_sleepGood (cfg : GenCfg) : ∀ sleeps k st,
    (∀ q r, Ev.sleepEv q (some r) ∈ st.trace → q < r) →
    ∀ q r, Ev.sleepEv q (some r) ∈ (genOuter cfg k st sleeps).trace → q < r := by
  intro sleeps
  induction sleeps with
  | nil =>
    intro k st hst q r hm
    rw [genOuter_nil] at hm
    exact hst q r hm
  | cons sleep rest ih =>
    intro k st hst q r
    rcases hA : genAttempt cfg k st with ⟨st1, ie⟩
    have hsub1 : ∀ q2 ro, Ev.sleepEv q2 ro ∈ st1.trace → Ev.sleepEv q2 ro ∈ st.trace := by
      intro q2 ro hm
      refine genAttempt_sleep_sub cfg k st q2 ro ?_
      rw [hA]
      exact hm
    cases ie with
    | endRun r2 =>
      rw [genOuter_cons_endRun cfg k st sleep rest st1 r2 hA]
      intro hm
      exact hst q r (hsub1 q _ hm)
    | fuelOut =>
      rw [genOuter_cons_fuelOut cfg k st sleep rest st1 hA]
      intro hm
      exact hst q r (hsub1 q _ hm)
    | retryable err =>
      rcases genHook_cases cfg err st1 with ⟨LH, hH1, hH2, hH3, hH4, hH5⟩
      rcases hH : genHook cfg err st1 with ⟨st4, orr⟩
      rw [hH] at hH1 hH5
      simp only at hH1 hH5
      have hsub4 : ∀ q2 ro, Ev.sleepEv q2 ro ∈ st4.trace →
          Ev.sleepEv q2 ro ∈ st.trace := by
        intro q2 ro hm
        rw [hH1] at hm
        rcases List.mem_append.1 hm with hm | hm
        · exact hsub1 q2 ro hm
        · exact absurd hm (hH4 q2 ro)
      cases orr with
      | some r2 =>
        rw [genOuter_cons_hookEnd cfg k st sleep rest st1 st4 err r2 hA hH]
        intro hm
        exact hst q r (hsub4 q _ hm)
      | none =>
        cases hrem : st4.remaining with
        | some r2 =>
          by_cases hs : r2 ≤ sleep
          · rw [genOuter_cons_deadline cfg k st sleep rest st1 st4 err r2 hA hH hrem hs]
            intro hm
            exact hst q r (hsub4 q _ hm)
          · rw [genOuter_cons_sleep cfg k st sleep rest st1 st4 err r2 hA hH hrem hs]
            refine ih (k + 1) _ ?_ q r
            intro q2 r3 hm
            rcases List.mem_append.1 hm with hm | hm
            · exact hst q2 r3 (hsub4 q2 _ hm)
            · simp at hm
              rcases hm with ⟨hq, hr⟩
              rw [hq, hr]
              exact lt_of_not_le hs
        | none =>
          rw [genOuter_cons_sleepNone cfg k st sleep rest st1 st4 err hA hH hrem]
          refine ih (k + 1) _ ?_ q r
          intro q2 r3 hm
          rcases List.mem_append.1 hm with hm | hm
          · exact hst q2 r3 (hsub4 q2 _ hm)
          · simp at hm

/-- Every deadline-exceeded result of the streaming retry loop chains
the most recent recorded retryable error. -/
theorem genOuter_deadline_last (cfg : GenCfg) : ∀ sleeps k st e,
    (genOuter cfg k st sleeps).result = .deadline e →
    (failList (genOuter cfg k st sleeps).trace).getLast? = some e := by
  intro sleeps
  induction sleeps with
  | nil =>
    intro k st e hm
    rw [genOuter_nil] at hm
    simp at hm
  | cons sleep rest ih =>
    intro k st e
    rcases hA : genAttempt cfg k st with ⟨st1, ie⟩
    cases ie with
    | endRun r2 =>
      rw [genOuter_cons_endRun cfg k st sleep rest st1 r2 hA]
      intro hm
      simp only at hm
      exfalso
      refine genAttempt_ne_deadline cfg k st e ?_
      rw [hA, hm]
    | fuelOut =>
      rw [genOuter_cons_fuelOut cfg k st sleep rest st1 hA]
      intro hm
      simp at hm
    | retryable err =>
      rcases genHook_cases cfg err st1 with ⟨LH, hH1, hH2, hH3, hH4, hH5⟩
      rcases hH : genHook cfg err st1 with ⟨st4, orr⟩
      rw [hH] at hH1 hH5
      simp only at hH1 hH5
      have hfail4 : failList st4.trace = failList st.trace ++ [err] := by
        rw [hH1, failList_append, hH3]
        have : failList st1.trace = failList st.trace ++ [err] := by
          have h2 := genAttempt_fail cfg k st err (by rw [hA])
          rw [hA] at h2
          exact h2
        rw [this]
        simp
      cases orr with
      | some r2 =>
        rw [genOuter_cons_hookEnd cfg k st sleep rest st1 st4 err r2 hA hH]
        intro hm
        simp only at hm
        exfalso
        rcases genHook_some cfg err st1 r2 (by rw [hH]) with h2 | ⟨e2, hc, h2⟩ <;>
          rw [hm] at h2 <;> cases h2
      | none =>
        cases hrem : st4.remaining with
        | some r2 =>
          by_cases hs : r2 ≤ sleep
          · rw [genOuter_cons_deadline cfg k st sleep rest st1 st4 err r2 hA hH hrem hs]
            intro hm
            simp only at hm
            injection hm with hm2
            rw [← hm2, hfail4, getLast?_append_singleton]
          · rw [genOuter_cons_sleep cfg k st sleep rest st1 st4 err r2 hA hH hrem hs]
            exact ih (k + 1) _ e
        | none =>
          rw [genOuter_cons_sleepNone cfg k st sleep rest st1 st4 err hA hH hrem]
          exact ih (k + 1) _ e

/-! ## The pre-pull budget check and its causeless RetryError -/

/-- A stream whose own failures are all ordinary user exceptions (it
never raises the executor-internal `RetryError` object itself). -/
def StreamBeh.userOnly (s : StreamBeh) : Prop :=
  (∀ n e, (s.pulls n).kind = .fails e → e.isUser = true) ∧
  (∀ e e2, s.throwResp e = .raises e2 → e2.isUser = true)

/-- A streaming configuration whose factory, streams and consumer raise
only ordinary user exceptions. -/
def GenCfg.userOnly (cfg : GenCfg) : Prop :=
  (∀ k e, cfg.factory k = .raises e → e.isUser = true) ∧
  (∀ k s, cfg.factory k = .stream s → s.userOnly) ∧
  (∀ n e, cfg.consumer n = .throw e → e.isUser = true)

theorem genPullLoop_budget (cfg : GenCfg) (k : Nat) (s : StreamBeh)
    (hs : s.userOnly) (hts : cfg.timeout.isSome = true) :
    ∀ fuel pullIdx st r, st.remaining = some r →
      (0 < r ∨ failList st.trace = []) →
      (genPullLoop cfg k s fuel pullIdx st).2 = .endRun (.fatal .budgetRetryError) →
      failList (genPullLoop cfg k s fuel pullIdx st).1.trace = [] := by
  intro fuel
  induction fuel with
  | zero =>
    intro pullIdx st r hrem hinv h
    simp [genPullLoop] at h
  | succ n ih =>
    intro pullIdx st r hrem hinv
    simp only [genPullLoop]
    split
    · rename_i hn
      rw [hrem] at hn
      cases hn
    · rename_i r1 hr1
      rw [hrem] at hr1
      injection hr1 with hr1e
      subst hr1e
      by_cases hle : r ≤ 0
      · rw [if_pos hle]
        intro h
        rcases handleExc_cases cfg k true Err.budgetRetryError st with hc | hc | ⟨rem, hc⟩ <;>
          rw [hc] at h ⊢
        · simp only
          rw [failList_append, failList_closeIf]
          rcases hinv with hpos | hemp
          · exact absurd hle (not_le.2 hpos)
          · simp [hemp]
        · simp at h
        · simp at h
      · rw [if_neg hle]
        by_cases hcan : cfg.timeout.isSome = true ∧ r ≤ (s.pulls pullIdx).dur
        · rw [if_pos hcan]
          intro h
          rcases handleExc_fatal cfg k true Err.timeoutError _ _ h with ⟨he, _⟩
          cases he
        · rw [if_neg hcan]
          have hdur : (s.pulls pullIdx).dur < r := by
            by_contra hnd
            exact hcan ⟨hts, le_of_not_lt hnd⟩
          split
          · split
            · intro h
              exact ih _ _ (r - (s.pulls pullIdx).dur) rfl (Or.inl (by linarith)) h
            · intro h
              simp at h
            · rename_i e0 hc
              cases ht : s.throwResp e0
              · rename_i e2
                intro h
                rcases handleExc_fatal cfg k false e2 _ _ h with ⟨he, _⟩
                have hue := hs.2 e0 e2 ht
                rw [← he] at hue
                simp [Err.isUser] at hue
              · intro h
                simp at h
              · intro h
                exact ih _ _ (r - (s.pulls pullIdx).dur) rfl (Or.inl (by linarith)) h
          · intro h
            simp at h
          · rename_i e0 hk
            intro h
            rcases handleExc_fatal cfg k false e0 _ _ h with ⟨he, _⟩
            have hue := hs.1 pullIdx e0 hk
            rw [← he] at hue
            simp [Err.isUser] at hue

theorem genPullLoop_budget_none (cfg : GenCfg) (k : Nat) (s : StreamBeh) :
    ∀ fuel pullIdx st, st.remaining = none →
      (genPullLoop cfg k s fuel pullIdx st).2 ≠ .endRun (.fatal .budgetRetryError) := by
  intro fuel
  cases fuel with
  | zero =>
    intro pullIdx st hrem
    simp [genPullLoop]
  | succ n =>
    intro pullIdx st hrem
    simp only [genPullLoop]
    split
    · intro h
      rcases handleExc_fatal cfg k true Err.noneCmpTypeError st _ h with ⟨he, _⟩
      cases he
    · rename_i r1 hr1
      rw [hrem] at hr1
      cases hr1

theorem genAttempt_budget (cfg : GenCfg) (k : Nat) (st : GSt) (hu : cfg.userOnly)
    (hinv : st.remaining = none ∨ (cfg.timeout.isSome = true ∧
      ∃ r, st.remaining = some r ∧ (0 < r ∨ failList st.trace = []))) :
    (genAttempt cfg k st).2 = .endRun (.fatal .budgetRetryError) →
    failList (genAttempt cfg k st).1.trace = [] := by
  unfold genAttempt
  cases hf : cfg.factory k with
  | raises e0 =>
    intro h
    rcases handleExc_fatal cfg k false e0 st _ h with ⟨he, _⟩
    have hue := hu.1 k e0 hf
    rw [← he] at hue
    simp [Err.isUser] at hue
  | stream s =>
    have hsu : s.userOnly := hu.2.1 k s hf
    rcases hinv with hnone | ⟨hts, r, hrem, hinv2⟩
    · intro h
      exact absurd h
        (genPullLoop_budget_none cfg k s cfg.innerFuel 0 _ (by simp [hnone]))
    · have hinv3 : (0 : ℤ) < r ∨
          failList (GSt.trace {st with trace := st.trace ++ [Ev.openS k]}) = [] := by
        rcases hinv2 with hp | hf2
        · exact Or.inl hp
        · refine Or.inr ?_
          show failList (st.trace ++ [Ev.openS k]) = []
          rw [failList_append, hf2]
          rfl
      intro h
      exact genPullLoop_budget cfg k s hsu hts cfg.innerFuel 0 _ r (by simp [hrem])
        hinv3 h

/-- Under exact time accounting, a streaming run whose factory, streams
and consumer raise only ordinary exceptions can propagate the causeless
`RetryError` of the pre-pull budget check only when no retryable failure
was ever recorded: the check is reachable only before the first pull of
the first attempt (and only when the configured timeout is not
positive). -/
theorem genOuter_budget (cfg : GenCfg) (hu : cfg.userOnly) : ∀ sleeps k st,
    (st.remaining = none ∨ (cfg.timeout.isSome = true ∧
      ∃ r, st.remaining = some r ∧ (0 < r ∨ failList st.trace = []))) →
    (genOuter cfg k st sleeps).result = .fatal .budgetRetryError →
    failList (genOuter cfg k st sleeps).trace = [] := by
  intro sleeps
  induction sleeps with
  | nil =>
    intro k st hinv h
    rw [genOuter_nil] at h
    simp at h
  | cons sleep rest ih =>
    intro k st hinv
    have hAB := genAttempt_budget cfg k st hu hinv
    have hAS := genAttempt_isSome cfg k st
    rcases hA : genAttempt cfg k st with ⟨st1, ie⟩
    rw [hA] at hAB hAS
    simp only at hAB hAS
    cases ie with
    | endRun r2 =>
      rw [genOuter_cons_endRun cfg k st sleep rest st1 r2 hA]
      intro h
      simp only at h
      exact hAB (by rw [h])
    | fuelOut =>
      rw [genOuter_cons_fuelOut cfg k st sleep rest st1 hA]
      intro h
      simp at h
    | retryable err =>
      rcases genHook_cases cfg err st1 with ⟨LH, hH1, hH2, hH3, hH4, hH5⟩
      rcases hH : genHook cfg err st1 with ⟨st4, orr⟩
      rw [hH] at hH1 hH5
      simp only at hH1 hH5
      cases orr with
      | some r2 =>
        rw [genOuter_cons_hookEnd cfg k st sleep rest st1 st4 err r2 hA hH]
        intro h
        simp only at h
        rcases genHook_some cfg err st1 r2 (by rw [hH]) with hd | ⟨e2, hc, hfat⟩
        · rw [h] at hd
          cases hd
        · rw [h] at hfat
          injection hfat with hfe
          have hue := hu.2.2 st1.yIdx e2 hc
          rw [← hfe] at hue
          simp [Err.isUser] at hue
      | none =>
        cases hrem4 : st4.remaining with
        | some r2 =>
          by_cases hsl : r2 ≤ sleep
          · rw [genOuter_cons_deadline cfg k st sleep rest st1 st4 err r2 hA hH hrem4 hsl]
            intro h
            simp at h
          · rw [genOuter_cons_sleep cfg k st sleep rest st1 st4 err r2 hA hH hrem4 hsl]
            have hts : cfg.timeout.isSome = true := by
              rcases hinv with hnone | ⟨hts, _⟩
              · exfalso
                rw [hH5] at hrem4
                rw [hnone] at hAS
                rw [hrem4] at hAS
                simp at hAS
              · exact hts
            refine ih (k + 1) _ (Or.inr ⟨hts, r2 - sleep, rfl, Or.inl ?_⟩)
            have := lt_of_not_le hsl
            linarith
        | none =>
          rw [genOuter_cons_sleepNone cfg k st sleep rest st1 st4 err hA hH hrem4]
          exact ih (k + 1) _ (Or.inl (by simp [hrem4]))

theorem handleExc_rejected (cfg : GenCfg) (k : Nat) (op : Bool) (e : Err) (st : GSt)
    (hp : cfg.predicate e = false) (ht : e.timeoutLike = false) :
    handleExc cfg k op e st =
      ({st with trace := st.trace ++ closeIf op k}, .endRun (.fatal e)) := by
  unfold handleExc
  rw [if_pos ⟨hp, ht⟩]

theorem handleExc_accepted (cfg : GenCfg) (k : Nat) (op : Bool) (e : Err) (st : GSt)
    (hacc : ¬(cfg.predicate e = false ∧ e.timeoutLike = false))
    (hts : st.startTs.isSome = true ∨ st.remaining = none) :
    (handleExc cfg k op e st).2 = .retryable e := by
  unfold handleExc
  rw [if_neg hacc]
  cases hrem : st.remaining with
  | none => simp [hrem]
  | some r =>
    rcases hts with hts | hts
    · cases hst : st.startTs with
      | none =>
        rw [hst] at hts
        simp at hts
      | some ts => simp [hrem, hst]
    · rw [hts] at hrem
      cases hrem

/-- One-step characterisation of consumer error injection: after a
yielded value, an injected error is forwarded into the active stream
with `athrow`; when the stream lets an error propagate in response, that
error reaches the broad `except` handler and is classified like any
stream failure — a rejected non-timeout error propagates, while an
accepted or timeout-flagged error restarts the retry loop. -/
theorem genPullLoop_throw_step (cfg : GenCfg) (k : Nat) (s : StreamBeh)
    (fuel pullIdx : Nat) (st : GSt) (r d : ℤ) (v : Int) (e e2 : Err)
    (hrem : st.remaining = some r) (hr : ¬ r ≤ 0)
    (hp : s.pulls pullIdx = ⟨d, .yields v⟩) (hd : ¬ r ≤ d)
    (hc : cfg.consumer st.yIdx = .throw e)
    (ht : s.throwResp e = .raises e2) :
    Ev.throwEv k e ∈ (genPullLoop cfg k s (fuel + 1) pullIdx st).1.trace ∧
    (cfg.predicate e2 = false → e2.timeoutLike = false →
      (genPullLoop cfg k s (fuel + 1) pullIdx st).2 = .endRun (.fatal e2)) ∧
    (cfg.predicate e2 = true →
      (genPullLoop cfg k s (fuel + 1) pullIdx st).2 = .retryable e2) ∧
    (e2.timeoutLike = true →
      (genPullLoop cfg k s (fuel + 1) pullIdx st).2 = .retryable e2) := by
  have hred : genPullLoop cfg k s (fuel + 1) pullIdx st =
      handleExc cfg k false e2
        {st with startTs := some st.now, now := st.now + d,
                 remaining := some (r - d), yIdx := st.yIdx + 1,
                 trace := st.trace ++ [Ev.yieldVal v] ++ [Ev.throwEv k e]
                   ++ [Ev.closeS k]} := by
    simp [genPullLoop, hrem, hr, hp, hd, hc, ht]
  rw [hred]
  refine ⟨?_, ?_, ?_, ?_⟩
  · rcases handleExc_cases cfg k false e2 _ with hcs | hcs | ⟨rem, hcs⟩ <;>
      rw [hcs] <;> simp
  · intro hpred htl
    rw [handleExc_rejected cfg k false e2 _ hpred htl]
  · intro hpred
    refine handleExc_accepted cfg k false e2 _ ?_ (Or.inl rfl)
    intro hcontra
    rw [hpred] at hcontra
    cases hcontra.1
  · intro htl
    refine handleExc_accepted cfg k false e2 _ ?_ (Or.inl rfl)
    intro hcontra
    rw [htl] at hcontra
    cases hcontra.2

/-- One-step characterisation of the pre-pull budget check with an
exhausted budget: the `RetryError` built there with a `None` cause is
itself caught by the broad except clause; when the classifier rejects
it, it propagates causeless. -/
theorem genPullLoop_precheck (cfg : GenCfg) (k : Nat) (s : StreamBeh)
    (fuel pullIdx : Nat) (st : GSt) (r : ℤ)
    (hrem : st.remaining = some r) (hr : r ≤ 0)
    (hpred : cfg.predicate Err.budgetRetryError = false) :
    (genPullLoop cfg k s (fuel + 1) pullIdx st).2 =
      .endRun (.fatal .budgetRetryError) := by
  have hred : genPullLoop cfg k s (fuel + 1) pullIdx st =
      handleExc cfg k true Err.budgetRetryError st := by
    simp [genPullLoop, hrem, hr]
  rw [hred, handleExc_rejected cfg k true Err.budgetRetryError st hpred rfl]

/-! ## Concrete scenarios used by the claims -/

/-- An ordinary retryable user error. -/
def e1 : Err := .user 1 false

/-- An ordinary user error (rejected by most predicates below). -/
def e2 : Err := .user 2 false

def sC1 : StreamBeh := ⟨fun _ => ⟨1, .yields 7⟩, fun _ => .exhausts⟩

/-- Streaming run with no timeout configured. -/
def cfgC1 : GenCfg :=
  ⟨fun _ => .stream sC1, fun e => e == e1, none, none, fun _ => .next, 4⟩

/-- Streaming run with a timeout whose factory call raises a retryable
error before any pull. -/
def cfgC10 : GenCfg :=
  ⟨fun _ => .raises e1, fun e => e == e1, some 10, none, fun _ => .next, 4⟩

def sC6a : StreamBeh :=
  ⟨fun n =>
    match n with
    | 0 => ⟨1, .yields 1⟩
    | 1 => ⟨1, .yields 2⟩
    | _ => ⟨1, .fails e1⟩,
   fun _ => .exhausts⟩

def sC6b : StreamBeh :=
  ⟨fun n =>
    match n with
    | 0 => ⟨1, .yields 3⟩
    | _ => ⟨1, .exhausts⟩,
   fun _ => .exhausts⟩

/-- The restart scenario of the spec: first stream yields 1, 2 then
fails retryably; the second stream yields 3 then exhausts. -/
def cfgC6 : GenCfg :=
  ⟨fun k => if k = 0 then .stream sC6a else .stream sC6b,
   fun e => e == e1, some 100, none, fun _ => .next, 10⟩

/-- Claim C1: the spec says a streaming run with no timeout never
rejects an attempt for budget reasons.  In the code,
`remaining_timeout_budget` is `None` in that case and the very first
budget check `remaining_timeout_budget <= 0` raises `TypeError`
(`None` is not comparable with `0`), which the broad except re-raises
as non-retryable: the run fails before the first pull. -/
theorem C1_no_timeout_budget_check_faults :
    retry_target_generator cfgC1 [1] =
      ⟨.fatal .noneCmpTypeError, [Ev.openS 0, Ev.closeS 0]⟩ := by
  decide

/-- Claim C10: with a timeout configured, a factory call that raises a
retryable error before any pull reaches the except handler with
`start_timestamp` never assigned; the budget decrement at line 168 then
raises `UnboundLocalError` instead of proceeding to the backoff
sleep. -/
theorem C10_factory_raise_unbound_local :
    retry_target_generator cfgC10 [1] = ⟨.nameError, [Ev.failEv e1]⟩ := by
  decide

/-- Claim C6: a streaming run whose first stream yields 1 and 2 and
then fails retryably, and whose second stream yields 3 and then
exhausts, produces the consumer-visible sequence [1, 2, 3], and the
first stream is released (immediately after its failure) before the
second one is created, as the explicit trace shows. -/
theorem C6_restart_scenario :
    retry_target_generator cfgC6 [1, 1, 1] =
      ⟨.done, [Ev.openS 0, Ev.yieldVal 1, Ev.yieldVal 2, Ev.closeS 0,
               Ev.failEv e1, Ev.sleepEv 1 (some 97), Ev.openS 1, Ev.yieldVal 3,
               Ev.closeS 1]⟩ ∧
    yieldsOf (retry_target_generator cfgC6 [1, 1, 1]).trace = [1, 2, 3] ∧
    pairedOC (ocList (retry_target_generator cfgC6 [1, 1, 1]).trace) = true := by
  refine ⟨by decide, by decide, by decide⟩

/-- Claim C5: in every streaming run (that does not exhaust the model
fuel), stream open and release events form an alternation of an open
immediately followed by the release of the same stream: at most one
underlying stream is open at any time, each stream is released before
the next one is created and before the run ends, on every exit path. -/
theorem C5_stream_lifecycle (cfg : GenCfg) (sleeps : List ℤ)
    (h : (retry_target_generator cfg sleeps).result ≠ .fuelOut) :
    pairedOC (ocList (retry_target_generator cfg sleeps).trace) = true := by
  have h2 : (genOuter cfg 0
      ⟨(match cfg.timeout with
        | some t => if t = 0 then none else some t
        | none => none), 0, none, 0, []⟩ sleeps).result ≠ .fuelOut := h
  rcases genOuter_oc cfg sleeps 0 _ h2 with ⟨L, hoc, hp⟩
  show pairedOC (ocList (genOuter cfg 0
      ⟨(match cfg.timeout with
        | some t => if t = 0 then none else some t
        | none => none), 0, none, 0, []⟩ sleeps).trace) = true
  rw [hoc]
  simpa [ocList] using hp

/-- Witness for C5 at the concrete restart scenario. -/
theorem C5_stream_lifecycle_witness :
    pairedOC (ocList (retry_target_generator cfgC6 [1, 1, 1]).trace) = true :=
  C5_stream_lifecycle cfgC6 [1, 1, 1] (by decide)

/-- A stream that fails retryably on every pull after one second. -/
def sC2 : StreamBeh := ⟨fun _ => ⟨1, .fails e1⟩, fun _ => .raises e1⟩

/-- Streaming run with timeout 2 whose only attempt fails retryably and
whose remaining budget is then below the requested sleep. -/
def cfgC2 : GenCfg :=
  ⟨fun _ => .stream sC2, fun e => e == e1, some 2,
   some (fun _ => none), fun _ => .next, 4⟩

/-- A harmless stream: every pull exhausts, injected errors exhaust. -/
def sC2w : StreamBeh := ⟨fun _ => ⟨1, .exhausts⟩, fun _ => .exhausts⟩

/-- Streaming run with a negative configured timeout: the pre-pull
budget check fires on the very first attempt, before any failure. -/
def cfgC2w : GenCfg :=
  ⟨fun _ => .stream sC2w, fun _ => false, some (-1), none, fun _ => .next, 4⟩

theorem cfgC2w_userOnly : GenCfg.userOnly cfgC2w := by
  refine ⟨?_, ?_, ?_⟩
  · intro k e h
    cases h
  · intro k s h
    cases h
    refine ⟨fun n e hp => ?_, fun e e3 ht => ?_⟩
    · cases hp
    · cases ht
  · intro n e h
    cases h

/-- Claim C2: in the exact-time model, every deadline-exceeded
`RetryError` raised by either executor carries a cause, and that cause
is the most recently recorded retryable error; a causeless `RetryError`
(the pre-pull budget check of the streaming executor, which builds
`RetryError(msg, None)`) can propagate only from a run in which no
retryable failure was ever recorded — under exact time accounting that
check is unreachable once any attempt has failed, because every sleep
leaves a positive budget and every bounded pull consumes strictly less
than the remaining budget.  `failList` lists the errors stored into
`last_exc`, `.deadline e` is a `RetryError` chained to `e`, and
`.fatal .budgetRetryError` is the causeless `RetryError` of line 128
re-raised by the broad except clause. -/
theorem C2_deadline_retryerror_cause :
    (∀ cfg sleeps e, (retry_target cfg sleeps).result = .deadline e →
      (failList (retry_target cfg sleeps).trace).getLast? = some e)
    ∧ (∀ cfg sleeps e, (retry_target_generator cfg sleeps).result = .deadline e →
      (failList (retry_target_generator cfg sleeps).trace).getLast? = some e)
    ∧ (∀ cfg sleeps, GenCfg.userOnly cfg →
      (retry_target_generator cfg sleeps).result = .fatal .budgetRetryError →
      failList (retry_target_generator cfg sleeps).trace = []) := by
  refine ⟨?_, ?_, ?_⟩
  · intro cfg sleeps e h
    exact ssLoop_deadline_last cfg sleeps
      (match cfg.timeout with
       | some t => if t = 0 then none else some t
       | none => none) 0 0 [] e h
  · intro cfg sleeps e h
    exact genOuter_deadline_last cfg sleeps 0
      ⟨(match cfg.timeout with
        | some t => if t = 0 then none else some t
        | none => none), 0, none, 0, []⟩ e h
  · intro cfg sleeps hu h
    refine genOuter_budget cfg hu sleeps 0
      ⟨(match cfg.timeout with
        | some t => if t = 0 then none else some t
        | none => none), 0, none, 0, []⟩ ?_ h
    cases hts : cfg.timeout with
    | none => exact Or.inl rfl
    | some t =>
      by_cases ht0 : t = 0
      · exact Or.inl (by simp [ht0])
      · exact Or.inr ⟨by simp, t, by simp [ht0], Or.inr rfl⟩

/-- Witness for C2: a single-shot run ending in deadline-exceeded
chains the recorded timeout error; a streaming run whose attempt failed
with `e1` and whose budget cannot cover the next sleep chains `e1`; and
a run propagating the causeless `RetryError` (negative timeout, first
check) indeed recorded no failure. -/
theorem C2_deadline_retryerror_cause_witness :
    (failList (retry_target ⟨fun _ => ⟨15, .error e1⟩, fun _ => false, some 10, false⟩
      [1, 1]).trace).getLast? = some Err.timeoutError
    ∧ (failList (retry_target_generator cfgC2 [5]).trace).getLast? = some e1
    ∧ failList (retry_target_generator cfgC2w [5]).trace = [] := by
  refine ⟨?_, ?_, ?_⟩
  · exact C2_deadline_retryerror_cause.1 _ [1, 1] Err.timeoutError (by decide)
  · exact C2_deadline_retryerror_cause.2.1 cfgC2 [5] e1 (by decide)
  · exact C2_deadline_retryerror_cause.2.2 cfgC2w [5] cfgC2w_userOnly (by decide)

/-- Single-shot run with timeout 10: the first attempt fails retryably
after 8 units, leaving 2 of budget while the requested sleep is 5. -/
def cfgC3 : SSCfg :=
  ⟨fun n => if n = 0 then ⟨8, .error e1⟩ else ⟨1, .ok 42⟩,
   fun e => e == e1, some 10, false⟩

/-- Claim C3 counterexample: after the first retryable failure the
remaining budget (2) is below the computed sleep (5).  The claim says
the single-shot executor then fails with a deadline-exceeded error
chaining the last error, like the streaming executor.  Instead the code
sleeps `min(time_to_deadline, sleep) = 2` (the recorded sleep event
carries remaining budget 2), starts a second attempt whose `wait_for`
bound is zero, and only then raises a `RetryError` — chained to the
timeout cancellation, not to the last retryable error `e1`. -/
theorem C3_single_shot_clips_cx :
    retry_target cfgC3 [5, 5] =
      ⟨.deadline Err.timeoutError,
       [Ev.attemptEv 0, Ev.failEv e1, Ev.sleepEv 2 (some 2), Ev.attemptEv 1,
        Ev.failEv Err.timeoutError]⟩ ∧
    (retry_target cfgC3 [5, 5]).result ≠ .deadline e1 ∧
    Ev.sleepEv 2 (some 2) ∈ (retry_target cfgC3 [5, 5]).trace := by
  refine ⟨by decide, by decide, by decide⟩

/-- Claim C3, amended: the streaming executor never performs a sleep
unless it is strictly below the remaining budget, and when the budget
does not exceed the computed sleep it fails with a deadline-exceeded
error chaining the last error; the single-shot executor instead clips
every sleep to `min(time_to_deadline, sleep)` — so it never sleeps past
the deadline (every recorded sleep is at most the remaining budget) but
it does sleep up to the deadline and continues the loop whenever the
deadline has not yet passed after a retryable failure. -/
theorem C3_sleep_budget_discipline :
    (∀ cfg sleeps q r,
      Ev.sleepEv q (some r) ∈ (retry_target_generator cfg sleeps).trace → q < r)
    ∧ (∀ cfg k st sleep rest st1 st4 err r,
      genAttempt cfg k st = (st1, .retryable err) →
      genHook cfg err st1 = (st4, none) →
      st4.remaining = some r → r ≤ sleep →
      genOuter cfg k st (sleep :: rest) = ⟨.deadline err, st4.trace⟩)
    ∧ (∀ cfg sleeps q r,
      Ev.sleepEv q (some r) ∈ (retry_target cfg sleeps).trace → q ≤ r)
    ∧ (∀ cfg d now nA tr sleep rest e,
      ¬(d - now ≤ (cfg.attempts nA).dur ∨ d - now ≤ 0) →
      (cfg.attempts nA).outcome = .error e →
      ¬(cfg.predicate e = false ∧ e.timeoutLike = false) →
      ¬(d ≤ now + (cfg.attempts nA).dur) →
      ssLoop cfg (some d) now nA tr (sleep :: rest) =
        ssLoop cfg (some d)
          (now + (cfg.attempts nA).dur
            + min (d - (now + (cfg.attempts nA).dur)) sleep) (nA + 1)
          (ssTr2 cfg tr nA e
            ++ [Ev.sleepEv (min (d - (now + (cfg.attempts nA).dur)) sleep)
                  (some (d - (now + (cfg.attempts nA).dur)))]) rest) := by
  refine ⟨?_, ?_, ?_, ?_⟩
  · intro cfg sleeps q r hm
    refine genOuter_sleepGood cfg sleeps 0
      ⟨(match cfg.timeout with
        | some t => if t = 0 then none else some t
        | none => none), 0, none, 0, []⟩ ?_ q r hm
    intro q2 r2 hm2
    simp at hm2
  · intro cfg k st sleep rest st1 st4 err r hA hH hrem hs
    exact genOuter_cons_deadline cfg k st sleep rest st1 st4 err r hA hH hrem hs
  · intro cfg sleeps q r hm
    refine ssLoop_sleepLe cfg sleeps
      (match cfg.timeout with
       | some t => if t = 0 then none else some t
       | none => none) 0 0 [] ?_ q r hm
    intro q2 r2 hm2
    simp at hm2
  · intro cfg d now nA tr sleep rest e hb ho hr hd
    exact ssLoop_continue cfg d now nA tr sleep rest e hb ho hr hd

/-- Witness for C3 at concrete runs: a strict sleep bound in the
restart scenario, the fail-fast streaming step of a run with budget 1
and sleep 5, the clipped single-shot sleep of the counterexample run,
and the single-shot continue step of that same run. -/
theorem C3_sleep_budget_discipline_witness :
    (1 : ℤ) < 97
    ∧ genOuter cfgC2 0 ⟨some 2, 0, none, 0, []⟩ [5] =
        ⟨.deadline e1, [Ev.openS 0, Ev.closeS 0, Ev.failEv e1, Ev.onErrEv e1]⟩
    ∧ (2 : ℤ) ≤ 2
    ∧ ssLoop cfgC3 (some 10) 0 0 [] [5, 5] =
        ssLoop cfgC3 (some 10) (0 + 8 + min (10 - (0 + 8)) 5) (0 + 1)
          (ssTr2 cfgC3 [] 0 e1
            ++ [Ev.sleepEv (min (10 - (0 + 8)) 5) (some (10 - (0 + 8)))]) [5] := by
  refine ⟨?_, ?_, ?_, ?_⟩
  · exact C3_sleep_budget_discipline.1 cfgC6 [1, 1, 1] 1 97 (by decide)
  · exact C3_sleep_budget_discipline.2.1 cfgC2 0 ⟨some 2, 0, none, 0, []⟩ 5 []
      ⟨some 1, 1, some 0, 0, [Ev.openS 0, Ev.closeS 0, Ev.failEv e1]⟩
      ⟨some 1, 1, some 0, 0, [Ev.openS 0, Ev.closeS 0, Ev.failEv e1, Ev.onErrEv e1]⟩
      e1 1 (by decide) (by decide) (by decide) (by decide)
  · exact C3_sleep_budget_discipline.2.2.1 cfgC3 [5, 5] 2 2 (by decide)
  · exact C3_sleep_budget_discipline.2.2.2 cfgC3 10 0 0 [] 5 [5] e1
      (by decide) rfl (by decide) (by decide)

def sC4a : StreamBeh := ⟨fun _ => ⟨1, .yields 1⟩, fun e => .raises e⟩

def sC4b : StreamBeh := ⟨fun _ => ⟨1, .yields 9⟩, fun e => .raises e⟩

/-- Consumer that injects `e2` in response to the first value and
closes after the next one. -/
def consC4 : Nat → ConsumerResp := fun n =>
  match n with
  | 0 => .throw e2
  | _ => .close

/-- Streaming run where the consumer injects `e2`, the stream lets it
propagate, and the classifier accepts every error. -/
def cfgC4 : GenCfg :=
  ⟨fun k => if k = 0 then .stream sC4a else .stream sC4b,
   fun _ => true, some 100, none, consC4, 10⟩

/-- Same run with a classifier that rejects every error. -/
def cfgC4r : GenCfg :=
  ⟨fun k => if k = 0 then .stream sC4a else .stream sC4b,
   fun _ => false, some 100, none, consC4, 10⟩

/-- Claim C4 counterexample: the consumer injects `e2` after the first
value and the stream re-raises it, but because the classifier accepts
`e2`, the run does not end by propagating it: the broad except clause
catches it, records it as a retryable failure, sleeps, restarts the
stream and yields a further value before the consumer closes. -/
theorem C4_injected_error_retried_cx :
    retry_target_generator cfgC4 [1, 1] =
      ⟨.done, [Ev.openS 0, Ev.yieldVal 1, Ev.throwEv 0 e2, Ev.closeS 0,
               Ev.failEv e2, Ev.sleepEv 1 (some 98), Ev.openS 1, Ev.yieldVal 9,
               Ev.closeS 1]⟩ ∧
    (retry_target_generator cfgC4 [1, 1]).result ≠ .fatal e2 ∧
    yieldsOf (retry_target_generator cfgC4 [1, 1]).trace = [1, 9] := by
  refine ⟨by decide, by decide, by decide⟩

/-- Claim C4, amended: an error injected by the consumer is forwarded
into the active underlying stream with `athrow`; when the stream lets an
error propagate in response, that error is not exempt from
classification — it is caught by the broad except clause like any stream
failure, so it propagates (ending the run) only when the classifier
rejects it and it is not a timeout error, and otherwise it is recorded
as a retryable failure and the retry loop restarts the stream. -/
theorem C4_injected_error_classified :
    ∀ cfg k s fuel pullIdx st r d v e eS,
      st.remaining = some r → ¬ r ≤ 0 →
      s.pulls pullIdx = ⟨d, .yields v⟩ → ¬ r ≤ d →
      cfg.consumer st.yIdx = .throw e →
      s.throwResp e = .raises eS →
      Ev.throwEv k e ∈ (genPullLoop cfg k s (fuel + 1) pullIdx st).1.trace ∧
      (cfg.predicate eS = false → eS.timeoutLike = false →
        (genPullLoop cfg k s (fuel + 1) pullIdx st).2 = .endRun (.fatal eS)) ∧
      (cfg.predicate eS = true →
        (genPullLoop cfg k s (fuel + 1) pullIdx st).2 = .retryable eS) ∧
      (eS.timeoutLike = true →
        (genPullLoop cfg k s (fuel + 1) pullIdx st).2 = .retryable eS) := by
  intro cfg k s fuel pullIdx st r d v e eS hrem hr hp hd hc ht
  exact genPullLoop_throw_step cfg k s fuel pullIdx st r d v e eS hrem hr hp hd hc ht

/-- Witness for C4: in the concrete injection scenario the forwarded
error is recorded, an accepting classifier turns it into a retryable
failure, and a rejecting classifier lets it propagate. -/
theorem C4_injected_error_classified_witness :
    Ev.throwEv 0 e2 ∈
      (genPullLoop cfgC4 0 sC4a 4 0 ⟨some 100, 0, none, 0, []⟩).1.trace
    ∧ (genPullLoop cfgC4 0 sC4a 4 0 ⟨some 100, 0, none, 0, []⟩).2 = .retryable e2
    ∧ (genPullLoop cfgC4r 0 sC4a 4 0 ⟨some 100, 0, none, 0, []⟩).2 =
        .endRun (.fatal e2) := by
  refine ⟨?_, ?_, ?_⟩
  · exact (C4_injected_error_classified cfgC4 0 sC4a 3 0 ⟨some 100, 0, none, 0, []⟩
      100 1 1 e2 e2 rfl (by decide) rfl (by decide) rfl rfl).1
  · exact (C4_injected_error_classified cfgC4 0 sC4a 3 0 ⟨some 100, 0, none, 0, []⟩
      100 1 1 e2 e2 rfl (by decide) rfl (by decide) rfl rfl).2.2.1 rfl
  · exact (C4_injected_error_classified cfgC4r 0 sC4a 3 0 ⟨some 100, 0, none, 0, []⟩
      100 1 1 e2 e2 rfl (by decide) rfl (by decide) rfl rfl).2.1 rfl rfl

/-- Single-shot run whose attempt would take 15 of the 10 budget units,
with a classifier that rejects every error. -/
def cfgC7 : SSCfg := ⟨fun _ => ⟨15, .error e1⟩, fun _ => false, some 10, false⟩

/-- Single-shot run whose operation raises its own timeout error after
1 unit, leaving plenty of budget; the classifier rejects every error. -/
def cfgC7b : SSCfg :=
  ⟨fun _ => ⟨1, .error (.user 3 true)⟩, fun _ => false, some 10, false⟩

/-- Claim C7 counterexample: the first attempt is cancelled by the
per-attempt bound (it would need 15 of the remaining 10 units).  The
cancellation bypasses the rejecting classifier (no fatal propagation),
but it does not drive another iteration of the retry loop: because the
per-attempt bound equals the whole remaining budget, the subsequent
deadline check fires and the run terminates at once with a
deadline-exceeded error chaining the timeout; no second attempt is
ever started. -/
theorem C7_cancelled_attempt_cx :
    retry_target cfgC7 [1, 1] =
      ⟨.deadline Err.timeoutError, [Ev.attemptEv 0, Ev.failEv Err.timeoutError]⟩ ∧
    Ev.attemptEv 1 ∉ (retry_target cfgC7 [1, 1]).trace ∧
    (retry_target cfgC7 [1, 1]).result ≠ .fatal e1 ∧
    (retry_target cfgC7 [1, 1]).result ≠ .fatal Err.timeoutError := by
  refine ⟨by decide, by decide, by decide, by decide⟩

/-- Claim C7, amended: a timeout on an individual attempt bypasses the
classifier in both cases, but with different outcomes.  An attempt
cancelled by the per-attempt bound — which equals the whole remaining
budget — is recorded as the last error and the run then terminates
immediately with a deadline-exceeded error chaining the timeout error,
regardless of the classifier; it does not drive another iteration.
Only an `asyncio.TimeoutError` raised by the operation itself before
the bound is treated as unconditionally retryable and drives another
iteration of the loop, again regardless of the classifier verdict. -/
theorem C7_attempt_timeout_asymmetry :
    (∀ cfg d now nA tr sleep rest,
      (d - now ≤ (cfg.attempts nA).dur ∨ d - now ≤ 0) →
      ssLoop cfg (some d) now nA tr (sleep :: rest) =
        ⟨.deadline Err.timeoutError, ssTr2 cfg tr nA Err.timeoutError⟩)
    ∧ (∀ cfg d now nA tr sleep rest e,
      ¬(d - now ≤ (cfg.attempts nA).dur ∨ d - now ≤ 0) →
      (cfg.attempts nA).outcome = .error e → e.timeoutLike = true →
      ¬(d ≤ now + (cfg.attempts nA).dur) →
      ssLoop cfg (some d) now nA tr (sleep :: rest) =
        ssLoop cfg (some d)
          (now + (cfg.attempts nA).dur
            + min (d - (now + (cfg.attempts nA).dur)) sleep) (nA + 1)
          (ssTr2 cfg tr nA e
            ++ [Ev.sleepEv (min (d - (now + (cfg.attempts nA).dur)) sleep)
                  (some (d - (now + (cfg.attempts nA).dur)))]) rest) := by
  refine ⟨?_, ?_⟩
  · intro cfg d now nA tr sleep rest hb
    exact ssLoop_cancel cfg d now nA tr sleep rest hb
  · intro cfg d now nA tr sleep rest e hb ho htl hd
    refine ssLoop_continue cfg d now nA tr sleep rest e hb ho ?_ hd
    intro hcontra
    rw [htl] at hcontra
    cases hcontra.2

/-- Witness for C7: the cancelled attempt of the counterexample run
ends it at once with the chained timeout error, while the self-raised
timeout error of the second run drives another loop iteration even
though the classifier rejects it. -/
theorem C7_attempt_timeout_asymmetry_witness :
    ssLoop cfgC7 (some 10) 0 0 [] [1, 1] =
      ⟨.deadline Err.timeoutError, ssTr2 cfgC7 [] 0 Err.timeoutError⟩
    ∧ ssLoop cfgC7b (some 10) 0 0 [] [1, 1] =
        ssLoop cfgC7b (some 10)
          (0 + (cfgC7b.attempts 0).dur
            + min (10 - (0 + (cfgC7b.attempts 0).dur)) 1) (0 + 1)
          (ssTr2 cfgC7b [] 0 (.user 3 true)
            ++ [Ev.sleepEv (min (10 - (0 + (cfgC7b.attempts 0).dur)) 1)
                  (some (10 - (0 + (cfgC7b.attempts 0).dur)))]) [1] := by
  refine ⟨?_, ?_⟩
  · exact C7_attempt_timeout_asymmetry.1 cfgC7 10 0 0 [] 1 [1] (by decide)
  · exact C7_attempt_timeout_asymmetry.2 cfgC7b 10 0 0 [] 1 [1] (.user 3 true)
      (by decide) rfl (by decide) (by decide)

/-- Single-shot run whose attempts always fail with the non-retryable
error `e2`. -/
def cfgC8 : SSCfg := ⟨fun _ => ⟨1, .error e2⟩, fun e => e == e1, some 10, false⟩

/-- Claim C8: a single-shot run whose first attempt fails with an error
rejected by the classifier (and not a timeout error) raises exactly
that error object, with zero sleeps and no attempt beyond the failing
one: the whole trace is the single attempt event. -/
theorem C8_fatal_error_unmodified (cfg : SSCfg) (sleep : ℤ) (rest : List ℤ)
    (e : Err) (ho : (cfg.attempts 0).outcome = .error e)
    (hp : cfg.predicate e = false) (ht : e.timeoutLike = false)
    (hto : cfg.timeout = none ∨
      ∃ t, cfg.timeout = some t ∧ 0 < t ∧ (cfg.attempts 0).dur < t) :
    retry_target cfg (sleep :: rest) = ⟨.fatal e, [Ev.attemptEv 0]⟩ := by
  rcases hto with hnone | ⟨t, hsome, htpos, hdur⟩
  · have hred : retry_target cfg (sleep :: rest) =
        ssLoop cfg none 0 0 [] (sleep :: rest) := by
      unfold retry_target
      rw [hnone]
    rw [hred]
    exact ssLoop_none_fatal cfg 0 0 [] sleep rest e ho hp ht
  · have ht0 : ¬ t = 0 := by
      intro h0
      rw [h0] at htpos
      exact lt_irrefl 0 htpos
    have hred : retry_target cfg (sleep :: rest) =
        ssLoop cfg (some t) 0 0 [] (sleep :: rest) := by
      unfold retry_target
      rw [hsome]
      simp [ht0]
    rw [hred]
    have hb : ¬(t - 0 ≤ (cfg.attempts 0).dur ∨ t - 0 ≤ 0) := by
      push_neg
      constructor <;> linarith
    exact ssLoop_fatal cfg t 0 0 [] sleep rest e hb ho hp ht

/-- Witness for C8 at the concrete run. -/
theorem C8_fatal_error_unmodified_witness :
    retry_target cfgC8 [1, 1] = ⟨.fatal e2, [Ev.attemptEv 0]⟩ :=
  C8_fatal_error_unmodified cfgC8 1 [1] e2 rfl (by decide) (by decide)
    (Or.inr ⟨10, rfl, by decide, by decide⟩)

/-- A policy with every field set, including the `is_generator`
override. -/
def p9 : AsyncRetry := AsyncRetry.make 1 1 60 2 (some 120) none (some true)

/-- Claim C9 counterexample: `_replace` builds the new instance by
calling the constructor without forwarding `_is_generator`, so
`with_timeout` resets that field to `None` instead of retaining it —
the other configuration fields are not all preserved as claimed. -/
theorem C9_replace_drops_is_generator_cx :
    (p9.with_timeout 30).is_generator = none ∧ p9.is_generator = some true := by
  refine ⟨by decide, by decide⟩

/-- Claim C9, amended: `with_timeout`, `with_predicate` and `with_delay`
return new instances and never mutate the receiver (immediate in this
functional model), and for non-zero numeric arguments they replace
exactly the named numeric fields while retaining classifier, delays,
timeout and error hook — with two exceptions inherited from `_replace`:
the `is_generator` field is always reset to `None` rather than
retained, and a zero (falsy) argument is ignored by the Python `or`,
leaving the old field value in place. -/
theorem C9_with_operations (p : AsyncRetry) (t i m mu : ℤ) (pr : Nat)
    (ht : t ≠ 0) (hi : i ≠ 0) (hm : m ≠ 0) (hmu : mu ≠ 0) :
    ((p.with_timeout t).timeout = some t ∧
     (p.with_timeout t).deadlineF = some t ∧
     (p.with_timeout t).predicate = p.predicate ∧
     (p.with_timeout t).initial = p.initial ∧
     (p.with_timeout t).maximum = p.maximum ∧
     (p.with_timeout t).multiplier = p.multiplier ∧
     (p.with_timeout t).on_error = p.on_error ∧
     (p.with_timeout t).is_generator = none)
    ∧ ((p.with_predicate pr).predicate = pr ∧
       (p.with_predicate pr).initial = p.initial ∧
       (p.with_predicate pr).maximum = p.maximum ∧
       (p.with_predicate pr).multiplier = p.multiplier ∧
       (p.with_predicate pr).timeout = p.timeout ∧
       (p.with_predicate pr).on_error = p.on_error ∧
       (p.with_predicate pr).is_generator = none)
    ∧ ((p.with_delay (some i) (some m) (some mu)).initial = i ∧
       (p.with_delay (some i) (some m) (some mu)).maximum = m ∧
       (p.with_delay (some i) (some m) (some mu)).multiplier = mu ∧
       (p.with_delay (some i) (some m) (some mu)).predicate = p.predicate ∧
       (p.with_delay (some i) (some m) (some mu)).timeout = p.timeout ∧
       (p.with_delay (some i) (some m) (some mu)).on_error = p.on_error ∧
       (p.with_delay (some i) (some m) (some mu)).is_generator = none)
    ∧ (p.with_timeout 0).timeout = p.timeout := by
  refine ⟨?_, ?_, ?_, ?_⟩
  · simp [AsyncRetry.with_timeout, AsyncRetry._replace, AsyncRetry.make,
      pyOrQ, pyOrOptQ, ht]
  · simp [AsyncRetry.with_predicate, AsyncRetry._replace, AsyncRetry.make,
      pyOrQ, pyOrOptQ]
  · simp [AsyncRetry.with_delay, AsyncRetry._replace, AsyncRetry.make,
      pyOrQ, pyOrOptQ, hi, hm, hmu]
  · simp [AsyncRetry.with_timeout, AsyncRetry._replace, AsyncRetry.make,
      pyOrQ, pyOrOptQ]

/-- Witness for C9 at the concrete policy. -/
theorem C9_with_operations_witness :
    (p9.with_timeout 30).timeout = some 30
    ∧ (p9.with_timeout 30).is_generator = none
    ∧ (p9.with_predicate 7).predicate = 7
    ∧ (p9.with_delay (some 2) (some 80) (some 3)).initial = 2
    ∧ (p9.with_timeout 0).timeout = some 120 := by
  have h := C9_with_operations p9 30 2 80 3 7 (by decide) (by decide) (by decide)
    (by decide)
  exact ⟨h.1.1, h.1.2.2.2.2.2.2.2, h.2.1.1, h.2.2.1.1, h.2.2.2⟩

end RetryAsync
